import Mathlib

/-!
Verification development for the ts-simple-type compilation engine.

The embedding follows the repository's design notes for languages without
weak references: every `SimpleType` value is identified by an arena id
(`TypeId`), and a table `TypeId → TypeInfo` describes the object graph.
Reference equality of types (`===` in the source) is equality of ids.

Embedded modules:
  * the type model (`src/index.ts`, SimpleType interfaces);
  * the path model (`src/simple-type-path.ts`);
  * the traversal engine, first draft of `src/visitor.ts` (the draft that is
    imported by `src/transform/compile-simple-type.ts`: no cycle prevention
    in `walkRecursive`, cycle handling via the `Cyclical.preventCycles`
    combinator);
  * the compiler orchestrator (`src/transform/compile-simple-type.ts`);
  * the adapter cache `toSimpleTypeCached` (`src/index.ts`).
-/

namespace TsSimpleType

/-- Arena identifier standing for one `SimpleType` object; `===` is `=`. -/
abbrev TypeId := Nat

/-- The closed `kind` discriminant of `SimpleType` (src/index.ts). -/
inductive TypeKind where
  | STRING_LITERAL
  | NUMBER_LITERAL
  | BOOLEAN_LITERAL
  | BIG_INT_LITERAL
  | ES_SYMBOL_UNIQUE
  | STRING
  | NUMBER
  | BOOLEAN
  | BIG_INT
  | ES_SYMBOL
  | NULL
  | UNDEFINED
  | VOID
  | NEVER
  | ANY
  | UNKNOWN
  | NON_PRIMITIVE
  | ENUM
  | ENUM_MEMBER
  | UNION
  | INTERSECTION
  | INTERFACE
  | OBJECT
  | CLASS
  | FUNCTION
  | METHOD
  | GENERIC_ARGUMENTS
  | GENERIC_PARAMETER
  | ALIAS
  | TUPLE
  | ARRAY
  | DATE
  | PROMISE
deriving DecidableEq, Repr

/-- The string form of a kind, as it appears in the `kind` field in the source. -/
def TypeKind.asString : TypeKind → String
  | .STRING_LITERAL => "STRING_LITERAL"
  | .NUMBER_LITERAL => "NUMBER_LITERAL"
  | .BOOLEAN_LITERAL => "BOOLEAN_LITERAL"
  | .BIG_INT_LITERAL => "BIG_INT_LITERAL"
  | .ES_SYMBOL_UNIQUE => "ES_SYMBOL_UNIQUE"
  | .STRING => "STRING"
  | .NUMBER => "NUMBER"
  | .BOOLEAN => "BOOLEAN"
  | .BIG_INT => "BIG_INT"
  | .ES_SYMBOL => "ES_SYMBOL"
  | .NULL => "NULL"
  | .UNDEFINED => "UNDEFINED"
  | .VOID => "VOID"
  | .NEVER => "NEVER"
  | .ANY => "ANY"
  | .UNKNOWN => "UNKNOWN"
  | .NON_PRIMITIVE => "NON_PRIMITIVE"
  | .ENUM => "ENUM"
  | .ENUM_MEMBER => "ENUM_MEMBER"
  | .UNION => "UNION"
  | .INTERSECTION => "INTERSECTION"
  | .INTERFACE => "INTERFACE"
  | .OBJECT => "OBJECT"
  | .CLASS => "CLASS"
  | .FUNCTION => "FUNCTION"
  | .METHOD => "METHOD"
  | .GENERIC_ARGUMENTS => "GENERIC_ARGUMENTS"
  | .GENERIC_PARAMETER => "GENERIC_PARAMETER"
  | .ALIAS => "ALIAS"
  | .TUPLE => "TUPLE"
  | .ARRAY => "ARRAY"
  | .DATE => "DATE"
  | .PROMISE => "PROMISE"

/-- `SimpleTypeMemberNamed` (src/index.ts): a named member of an object-like type. -/
structure SimpleTypeMemberNamed where
  name : String
  type : TypeId
  optional : Bool := false
deriving DecidableEq, Repr

/-- `SimpleTypeMemberIndexed` (src/index.ts): a tuple member. -/
structure SimpleTypeMemberIndexed where
  index : Nat
  type : TypeId
  optional : Bool := false
deriving DecidableEq, Repr

/-- `SimpleTypeFunctionParameter` (src/index.ts). -/
structure SimpleTypeFunctionParameter where
  name : String
  type : TypeId
  optional : Bool := false
  rest : Bool := false
  initializer : Bool := false
deriving DecidableEq, Repr

/-- One `SimpleType` record. All kind-specific fields are collected in one
structure; a value of kind `k` only ever uses the fields pertaining to `k`,
mirroring the tagged interfaces of src/index.ts. Fields that are optional in
TypeScript are `Option`s; required fields of kinds the claims exercise are
also `Option`s where the field does not exist for every kind (the enumerators
access them only for the matching kind). The source field `default` is named
`default?` here via `defaultType`, and the ARRAY/PROMISE/ENUM_MEMBER field
`type` is `innerType` (plain `type` would clash with the structure keyword
context in some positions). -/
structure TypeInfo where
  kind : TypeKind
  name : Option String := none
  types : List TypeId := []
  members : Option (List SimpleTypeMemberNamed) := none
  tupleMembers : List SimpleTypeMemberIndexed := []
  call : Option TypeId := none
  ctor : Option TypeId := none
  typeParameters : Option (List TypeId) := none
  indexTypeSTRING : Option TypeId := none
  indexTypeNUMBER : Option TypeId := none
  parameters : Option (List SimpleTypeFunctionParameter) := none
  returnType : Option TypeId := none
  target : Option TypeId := none
  typeArguments : List TypeId := []
  instantiated : Option TypeId := none
  innerType : Option TypeId := none
  constraint : Option TypeId := none
  defaultType : Option TypeId := none
deriving DecidableEq, Repr

/-- The arena: resolves a type id to its record. -/
abbrev TypeTable := TypeId → TypeInfo

/-- JavaScript string truthiness for an optional `name` field:
`undefined` and the empty string are falsy. -/
def isTruthyName : Option String → Bool
  | none => false
  | some s => s ≠ ""

-- ===========================================================================
-- Path model (src/simple-type-path.ts)
-- ===========================================================================

/-- `SimpleTypePathStep.step` discriminant. -/
inductive StepKind where
  | NAMED_MEMBER
  | INDEXED_MEMBER
  | STRING_INDEX
  | NUMBER_INDEX
  | VARIANT
  | AWAITED
  | TYPE_PARAMETER
  | TYPE_PARAMETER_CONSTRAINT
  | TYPE_PARAMETER_DEFAULT
  | PARAMETER
  | RETURN
  | CALL_SIGNATURE
  | CTOR_SIGNATURE
  | GENERIC_ARGUMENT
  | GENERIC_TARGET
  | ALIASED
deriving DecidableEq, Repr

/-- One labelled edge of a path. The source field `from` is called `fromType`
(`from` is a Lean keyword). Payload fields that only exist for some step
kinds are `Option`s with defaults, mirroring the union of the
`SimpleTypePathStep*` interfaces. -/
structure Step where
  step : StepKind
  fromType : TypeId
  index : Nat := 0
  name : Option String := none
  member : Option SimpleTypeMemberNamed := none
  indexedMember : Option SimpleTypeMemberIndexed := none
  parameter : Option SimpleTypeFunctionParameter := none
deriving DecidableEq, Repr

/-- A path: ordered list of steps (`SimpleTypePath`). -/
abbrev SimpleTypePath := List Step

/-- The `suffix` argument of `SimpleTypePath.concat`: a step, a path, or
`undefined`. -/
inductive PathSuffix where
  | undef
  | step (s : Step)
  | path (p : SimpleTypePath)

/-- `SimpleTypePath.empty()`. -/
def SimpleTypePath.empty : SimpleTypePath := []

/-- `SimpleTypePath.includes(path, type)`: true iff some step originates at
`type` (reference equality on types is id equality). -/
def SimpleTypePath.includes (path : SimpleTypePath) (type : TypeId) : Bool :=
  path.any (fun s => s.fromType == type)

/-- `SimpleTypePath.getSubpathFrom(path, fromType)`: the suffix of `path`
starting at the first step originating at `fromType`, or `undefined`. -/
def SimpleTypePath.getSubpathFrom (path : SimpleTypePath) (fromType : TypeId) :
    Option SimpleTypePath :=
  match path.findIdx? (fun s => s.fromType == fromType) with
  | none => none
  | some i => some (path.drop i)

/-- `SimpleTypePath.concat(prefix, suffix)`. -/
def SimpleTypePath.concat (p : SimpleTypePath) : PathSuffix → SimpleTypePath
  | .undef => p
  | .step s => p ++ [s]
  | .path q => p ++ q

/-- `SimpleTypePath.last(path)`. -/
def SimpleTypePath.last (path : SimpleTypePath) : Option Step :=
  path.getLast?

/-- The `arrow` helper of `SimpleTypePath.toString`. -/
def stepArrow (name : String) : String := "~" ++ name ++ "~>"

/-- The `typeName` helper of `SimpleTypePath.toString`:
`type.name ?? simpleTypeToString(type)`. The display-string module
(`simple-type-to-string.ts`) is a peripheral utility outside the core; it is
abstracted by the `render` parameter. -/
def typeNameOrRendered (render : TypeId → String) (tbl : TypeTable) (t : TypeId) : String :=
  match (tbl t).name with
  | some n => n
  | none => render t

/-- The text pushed for one step by the `switch` in `SimpleTypePath.toString`
(first draft of simple-type-path.ts). `ALIASED` pushes nothing; `VARIANT`
pushes nothing for non-variant `from` kinds. Payload fields that the source
reads unconditionally (`step.member.name`, `step.parameter.name`) are read
through a default, which well-formed steps never hit. -/
def stepToStringPieces (tbl : TypeTable) (s : Step) : List String :=
  match s.step with
  | .ALIASED => []
  | .AWAITED => [stepArrow ("awaited")]
  | .CALL_SIGNATURE => [stepArrow ("asFunction")]
  | .CTOR_SIGNATURE => [stepArrow ("asConstructor")]
  | .GENERIC_ARGUMENT => ["<<" ++ (s.name.getD (toString s.index)) ++ ">>"]
  | .GENERIC_TARGET => [stepArrow ("instantiatedFrom")]
  | .INDEXED_MEMBER =>
    ["[" ++ toString s.index ++ "]" ++
      (if (s.indexedMember.map (·.optional)).getD false then "?" else "")]
  | .NAMED_MEMBER =>
    ["." ++ ((s.member.map (·.name)).getD ("")) ++
      (if (s.member.map (·.optional)).getD false then "?" else "")]
  | .NUMBER_INDEX => ["[number]"]
  | .PARAMETER =>
    [stepArrow ("(" ++ ((s.parameter.map (·.name)).getD (toString s.index)) ++ ")")]
  | .RETURN => [".()"]
  | .STRING_INDEX => ["[string]"]
  | .TYPE_PARAMETER => ["<" ++ (s.name.getD (toString s.index)) ++ ">"]
  | .TYPE_PARAMETER_CONSTRAINT => [stepArrow ("constraintType")]
  | .TYPE_PARAMETER_DEFAULT => [stepArrow ("defaultType")]
  | .VARIANT =>
    match (tbl s.fromType).kind with
    | .UNION => [stepArrow ("|" ++ toString s.index)]
    | .INTERSECTION => [stepArrow ("&" ++ toString s.index)]
    | .ENUM => [stepArrow ("." ++ toString s.index)]
    | _ => []

/-- `SimpleTypePath.toString(path, target?)`: "T" for the empty path, else the
first step's origin name (or "T"), then the pieces for each step, then
`: <typeName target>` when a target is given. -/
def SimpleTypePath.toStr (render : TypeId → String) (tbl : TypeTable)
    (path : SimpleTypePath) (target : Option TypeId) : String :=
  let header : List String :=
    match path with
    | [] => ["T"]
    | s :: _ => [((tbl s.fromType).name).getD ("T")]
  let body : List String := (path.map (stepToStringPieces tbl)).flatten
  let tailPart : List String :=
    match target with
    | some t => [": " ++ typeNameOrRendered render tbl t]
    | none => []
  String.join (header ++ body ++ tailPart)

-- ===========================================================================
-- Traversal engine (src/visitor.ts, first draft: the one imported by
-- src/transform/compile-simple-type.ts)
-- ===========================================================================

/-- A JavaScript `Error` object: `id` stands for object identity (what the
module-level weak set tracks), `message` is the mutable message carried as a
value along the propagation. -/
structure JsError where
  id : Nat
  message : String
deriving DecidableEq, Repr

/-- The module-level weak set `ALREADY_ANNOTATED_ERROR_WITH_PATH`
(visitor.ts:86), as the set of already-annotated error identities. -/
abbrev AnnotatedErrorSet := List Nat

/-- The catch block of `walkRecursive` (visitor.ts:100-108): if the escaping
value is an `Error` whose identity is not in the weak set, append one
`\nPath: <toString(path, type)>` line to its message and add it to the set;
then rethrow. -/
def annotateCaughtError (render : TypeId → String) (tbl : TypeTable)
    (path : SimpleTypePath) (type : TypeId) (e : JsError) (ann : AnnotatedErrorSet) :
    JsError × AnnotatedErrorSet :=
  if e.id ∈ ann then (e, ann)
  else
    ({ e with message := e.message ++ "\nPath: " ++ SimpleTypePath.toStr render tbl path (some type) },
      e.id :: ann)

/-- Deep embedding of a visitor body for `walkRecursive`: a visitor may
return a value, throw an error, recurse into a child through `args.visit`
(entering a new walker frame), or sequence two actions (the second runs only
when the first returns normally; either one's exception propagates to the
enclosing frame's single catch). Visitor results are opaque (`Nat`). -/
inductive VisitorProg where
  | ret (value : Nat)
  | throwErr (errorId : Nat) (msg : String)
  | visitChild (s : Step) (child : TypeId) (body : VisitorProg)
  | andThen (first next : VisitorProg)
deriving DecidableEq, Repr

/-- Does the program contain `throw new Error(msg)` for identity `errorId`? -/
def VisitorProg.throwsError : VisitorProg → Nat → String → Bool
  | .ret _, _, _ => false
  | .throwErr i m, j, m' => i == j && m == m'
  | .visitChild _ _ b, j, m' => b.throwsError j m'
  | .andThen a b, j, m' => a.throwsError j m' || b.throwsError j m'

/-- Evaluation of a visitor's body inside the current frame:
`args.visit(step, child)` evaluates
`walkRecursive(SimpleTypePath.concat(path, step), child, fn)`
(visitor.ts:77-84), i.e. it enters a child frame whose try/catch wraps the
child body; that child frame is inlined in the `visitChild` case to keep the
recursion structural, and `runVisitorBody_visitChild_eq_walkRecursive` below
records that the inlined code is exactly `walkRecursive`. Exceptions inside
a body propagate out of it to the enclosing frame's catch. -/
def runVisitorBody (render : TypeId → String) (tbl : TypeTable) :
    SimpleTypePath → VisitorProg → AnnotatedErrorSet →
    Except JsError Nat × AnnotatedErrorSet
  | _, .ret v, ann => (.ok v, ann)
  | _, .throwErr i m, ann => (.error ⟨i, m⟩, ann)
  | path, .visitChild s child inner, ann =>
    match runVisitorBody render tbl (SimpleTypePath.concat path (.step s)) inner ann with
    | (.ok v, ann₁) => (.ok v, ann₁)
    | (.error e, ann₁) =>
      let r := annotateCaughtError render tbl (SimpleTypePath.concat path (.step s)) child e ann₁
      (.error r.1, r.2)
  | path, .andThen a b, ann =>
    match runVisitorBody render tbl path a ann with
    | (.ok _, ann₁) => runVisitorBody render tbl path b ann₁
    | r => r

/-- `walkRecursive(path, type, fn)` (visitor.ts:93-109): runs the visitor
body (no cycle check of any kind), and if it throws, annotates the escaping
error once per error identity and rethrows it. -/
def walkRecursive (render : TypeId → String) (tbl : TypeTable)
    (path : SimpleTypePath) (type : TypeId) (body : VisitorProg)
    (ann : AnnotatedErrorSet) : Except JsError Nat × AnnotatedErrorSet :=
  match runVisitorBody render tbl path body ann with
  | (.ok v, ann₁) => (.ok v, ann₁)
  | (.error e, ann₁) =>
    let r := annotateCaughtError render tbl path type e ann₁
    (.error r.1, r.2)

/-- The `args` record handed to a visitor (`VisitFnArgs`): the visited type,
the path so far, and the polymorphic `visit` callback (opaque here; the
cycle-prevention combinator passes it through untouched). -/
structure VisitArgs (V : Type) where
  type : TypeId
  path : SimpleTypePath
  visit : V

/-- The result type of a visitor wrapped by `Cyclical.preventCycles`: the
wrapped visitor's result, or a `Cyclical` sentinel carrying the cyclic
subpath (`class Cyclical`, visitor.ts:36-53). -/
inductive CyclicalOr (T : Type) where
  | cyclical (cycle : SimpleTypePath)
  | result (value : T)
deriving DecidableEq, Repr

/-- `Cyclical.preventCycles(visitor)` (visitor.ts:41-50): if
`getSubpathFrom(args.path, args.type)` yields a subpath, return
`new Cyclical(cycle)` without invoking the wrapped visitor; otherwise return
the wrapped visitor's result on the unchanged `args`. -/
def Cyclical.preventCycles {V T : Type} (visitor : VisitArgs V → T) :
    VisitArgs V → CyclicalOr T := fun args =>
  match SimpleTypePath.getSubpathFrom args.path args.type with
  | some cycle => .cyclical cycle
  | none => .result (visitor args)

-- ===========================================================================
-- Compiler orchestrator (src/transform/compile-simple-type.ts)
-- ===========================================================================

/-- `SimpleTypeCompilerLocation` (fileName + optional namespace). The source
field `namespace` is called `nspace` (`namespace` is a Lean keyword). -/
structure SimpleTypeCompilerLocation where
  fileName : String
  nspace : Option (List String) := none
deriving DecidableEq, Repr

/-- `SimpleTypeCompilerDeclarationLocation`: a location plus a `name`. -/
structure SimpleTypeCompilerDeclarationLocation where
  fileName : String
  nspace : Option (List String) := none
  name : String
deriving DecidableEq, Repr

/-- A location whose `name` may be absent: the type of explicit location
arguments and of `suggestDeclarationLocation` results
(`SimpleTypeCompilerLocation & { name?: string }`). -/
structure SimpleTypeCompilerLocationOptName where
  fileName : String
  nspace : Option (List String) := none
  name : Option String := none
deriving DecidableEq, Repr

/-- `NO_DESTINATION_LOCATION` (compile-simple-type.ts:24-26). -/
def NO_DESTINATION_LOCATION : SimpleTypeCompilerLocation := { fileName := "" }

/-- `outputLocationToKey(location)` (compile-simple-type.ts:406-408). -/
def outputLocationToKey (fileName : String) (nspace : Option (List String))
    (name : Option String) : String :=
  "file:" ++ fileName ++ " namespace:" ++
    (match nspace with
     | some parts => String.intercalate ("/") parts
     | none => "<none>") ++
  " name:" ++ (name.getD ("<none>"))

/-- The subclass of an output node: `SimpleTypeCompilerNode` (plain),
`SimpleTypeCompilerDeclarationNode` (carries `location`),
`SimpleTypeCompilerReferenceNode` (carries `refersTo`; its class default for
`shouldCache` is `false`), and `SimpleTypeCompilerDeclarationReferenceNode`
(its `refersToDeclaration` payload is dropped here; only `refersTo` matters
to the claims). -/
inductive NodeFlavor where
  | plain
  | declaration (location : SimpleTypeCompilerDeclarationLocation)
  | reference (refersTo : SimpleTypeCompilerDeclarationLocation)
  | declarationReference (refersTo : SimpleTypeCompilerDeclarationLocation)
deriving DecidableEq, Repr

/-- Is the node's class exactly `SimpleTypeCompilerNode`
(`result.constructor === SimpleTypeCompilerNode`)? -/
def NodeFlavor.isPlain : NodeFlavor → Bool
  | .plain => true
  | _ => false

/-- An output AST node: flavor, `shouldCache` flag, children. Text chunks and
source-map positions are not modeled (serialization is out of scope for the
claims). -/
inductive SimpleTypeCompilerNode where
  | mk (flavor : NodeFlavor) (shouldCache : Bool)
      (children : List SimpleTypeCompilerNode)
deriving Repr

/-- Node flavor accessor. -/
def SimpleTypeCompilerNode.flavor : SimpleTypeCompilerNode → NodeFlavor
  | .mk f _ _ => f

/-- Node `shouldCache` accessor (defaults to `true` on `SimpleTypeCompilerNode`,
`false` on `SimpleTypeCompilerReferenceNode`; `doNotCache()` sets it false). -/
def SimpleTypeCompilerNode.shouldCache : SimpleTypeCompilerNode → Bool
  | .mk _ c _ => c

/-- Node children accessor. -/
def SimpleTypeCompilerNode.children :
    SimpleTypeCompilerNode → List SimpleTypeCompilerNode
  | .mk _ _ cs => cs

/-- `SimpleTypeCompilerProgram` (compile-simple-type.ts:657-697): per-compile
state. Weak maps keyed by type identity are association lists keyed by
`TypeId`; `declarationLocationNameCount` is keyed by `outputLocationToKey`
strings. The `files` map of file builders is not modeled (file packing and
rendering never invoke the backend's `compileType` and are outside the
claims). -/
structure SimpleTypeCompilerProgram where
  entryPoints : List (TypeId × SimpleTypeCompilerDeclarationLocation) := []
  typeToDeclarationLocation : List (TypeId × SimpleTypeCompilerDeclarationLocation) := []
  typeToAstNode : List (TypeId × SimpleTypeCompilerNode) := []
  declarationLocationNameCount : List (String × Nat) := []

/-- `program.getDeclarationLocation(type)`. -/
def SimpleTypeCompilerProgram.getDeclarationLocation
    (p : SimpleTypeCompilerProgram) (type : TypeId) :
    Option SimpleTypeCompilerDeclarationLocation :=
  (p.typeToDeclarationLocation.find? (fun e => e.1 == type)).map (·.2)

/-- `program.setDeclarationLocation(type, location)`. -/
def SimpleTypeCompilerProgram.setDeclarationLocation
    (p : SimpleTypeCompilerProgram) (type : TypeId)
    (location : SimpleTypeCompilerDeclarationLocation) : SimpleTypeCompilerProgram :=
  { p with typeToDeclarationLocation := (type, location) :: p.typeToDeclarationLocation }

/-- `program.getDeclarationLocationCount(location)`. -/
def SimpleTypeCompilerProgram.getDeclarationLocationCount
    (p : SimpleTypeCompilerProgram)
    (location : SimpleTypeCompilerDeclarationLocation) : Nat :=
  ((p.declarationLocationNameCount.find?
      (fun e => e.1 == outputLocationToKey location.fileName location.nspace (some location.name))).map
    (·.2)).getD 0

/-- `program.setDeclarationLocationCount(location, count)`. -/
def SimpleTypeCompilerProgram.setDeclarationLocationCount
    (p : SimpleTypeCompilerProgram)
    (location : SimpleTypeCompilerDeclarationLocation) (count : Nat) :
    SimpleTypeCompilerProgram :=
  { p with declarationLocationNameCount :=
      (outputLocationToKey location.fileName location.nspace (some location.name), count) ::
        p.declarationLocationNameCount }

/-- `program.getAstNode(type)`. -/
def SimpleTypeCompilerProgram.getAstNode (p : SimpleTypeCompilerProgram)
    (type : TypeId) : Option SimpleTypeCompilerNode :=
  (p.typeToAstNode.find? (fun e => e.1 == type)).map (·.2)

/-- `program.setAstNode(type, node)`. -/
def SimpleTypeCompilerProgram.setAstNode (p : SimpleTypeCompilerProgram)
    (type : TypeId) (node : SimpleTypeCompilerNode) : SimpleTypeCompilerProgram :=
  { p with typeToAstNode := (type, node) :: p.typeToAstNode }

/-- The compiler's single mutable `current` cell (`SimpleTypeCompilerState`).
In the source, `program` holds a reference to a shared program object:
`withState` saves and restores the cell itself, while mutations of the
referenced program persist across the restore. The embedding mirrors this by
restoring `outputLocation` on exit and keeping the threaded `program`
whenever the saved cell referenced the same program object. -/
structure SimpleTypeCompilerState where
  outputLocation : Option SimpleTypeCompilerLocation
  program : SimpleTypeCompilerProgram

/-- An in-flight compiler: the `current` cell plus the observation trace of
types passed to `target.compileType` (pure instrumentation used to state the
memoization claims; the trace influences nothing). -/
structure CompilerRun where
  current : SimpleTypeCompilerState
  backendCompileTypeCalls : List TypeId := []

/-- The discriminated value of a JavaScript exception: `RangeError`,
`TypeError`, or plain `Error`, each with its message. -/
inductive JsErrorValue where
  | rangeError (message : String)
  | typeError (message : String)
  | error (message : String)
deriving DecidableEq, Repr

/-- A thrown JavaScript exception: its value and an optional `cause`
(causes nest one level in the modeled code). -/
structure JsException where
  value : JsErrorValue
  cause : Option JsErrorValue := none
deriving DecidableEq, Repr

/-- Does `chars` contain `pattern` as a contiguous run? -/
def charsContain (pattern : List Char) : List Char → Bool
  | [] => pattern.isEmpty
  | c :: rest => pattern.isPrefixOf (c :: rest) || charsContain pattern rest

/-- JS `s.includes(pattern)`. -/
def strIncludes (s pattern : String) : Bool :=
  charsContain pattern.toList s.toList

/-- The test of `compileType`'s catch handler (compile-simple-type.ts:184):
`error instanceof RangeError && error.message.includes("call stack size")`. -/
def isStackSizeRangeError (e : JsException) : Bool :=
  match e.value with
  | .rangeError m => strIncludes m ("call stack size")
  | _ => false

/-- One action of a backend's `compileType` body: recurse into a child via
`args.visit(step, child)` (the resulting node becomes one chunk of the
returned node), or throw. -/
inductive BackendAct where
  | visit (s : Step) (child : TypeId)
  | throwErr (e : JsException)
deriving Repr

/-- What the backend's `compileType` does for one invocation: perform the
actions in order, then return a node of the given flavor whose children are
the visited results, with the given `shouldCache` flag. -/
structure BackendNodeSpec where
  acts : List BackendAct
  flavor : NodeFlavor
  shouldCache : Bool := true
deriving Repr

/-- The pluggable target backend (`SimpleTypeCompilerTarget`,
compile-simple-type.ts:744-775). `compileType` is deep-embedded as a
`BackendNodeSpec` per `(type, path)`; `compileReference` returns a node or
throws; `compileFile` is not modeled (it never calls back into type
compilation); `suggestDeclarationLocation` optionally proposes a location
with an optional name. -/
structure SimpleTypeCompilerTarget where
  compileType : TypeId → SimpleTypePath → BackendNodeSpec
  compileReference : SimpleTypeCompilerLocation → SimpleTypeCompilerDeclarationLocation →
    Except JsException SimpleTypeCompilerNode
  suggestDeclarationLocation :
    Option (TypeId → SimpleTypeCompilerLocation → SimpleTypeCompilerLocationOptName) := none

/-- `compileReference(referenceArgs)` (compile-simple-type.ts:201-216): via
`withState`, sets `current.outputLocation = from`, calls the backend's
`compileReference`, and if the backend returned a cacheable node of class
exactly `SimpleTypeCompilerNode`, upgrades it with
`anonymousNodeBuilder().reference(to, result)` — a reference node carrying
`refersTo = to.location` with the plain node as its chunk, whose
`shouldCache` is `false` by class default. The `finally` restores `current`
(same shared program object) on both outcomes. -/
def SimpleTypeCompiler.compileReference (target : SimpleTypeCompilerTarget)
    (run : CompilerRun) (fromLoc : SimpleTypeCompilerLocation)
    (toLoc : SimpleTypeCompilerDeclarationLocation) :
    Except JsException SimpleTypeCompilerNode × CompilerRun :=
  let saved := run.current
  let run₁ : CompilerRun := { run with current := { saved with outputLocation := some fromLoc } }
  match target.compileReference fromLoc toLoc with
  | .error e =>
    (.error e, { run₁ with current := { run₁.current with outputLocation := saved.outputLocation } })
  | .ok result =>
    let node :=
      if result.flavor.isPlain && result.shouldCache then
        SimpleTypeCompilerNode.mk (.reference toLoc) false [result]
      else result
    (.ok node, { run₁ with current := { run₁.current with outputLocation := saved.outputLocation } })

/-- Runs one backend body's actions in order with `recurse` standing for the
child compilation performed by `args.visit(step, child)` (one walker frame of
the kernel at the next stack depth), collecting the visited child nodes; a
thrown error aborts the body and propagates. -/
def runBackendActsWith
    (recurse : CompilerRun → SimpleTypePath → TypeId →
      Except JsException SimpleTypeCompilerNode × CompilerRun)
    (path : SimpleTypePath) :
    List BackendAct → CompilerRun →
    Except JsException (List SimpleTypeCompilerNode) × CompilerRun
  | [], run => (.ok [], run)
  | .throwErr e :: _, run => (.error e, run)
  | .visit s child :: rest, run =>
    match recurse run (SimpleTypePath.concat path (.step s)) child with
    | (.error e, run₁) => (.error e, run₁)
    | (.ok node, run₁) =>
      match runBackendActsWith recurse path rest run₁ with
      | (.error e, run₂) => (.error e, run₂)
      | (.ok nodes, run₂) => (.ok (node :: nodes), run₂)

/-- The visitor kernel of `compileType` (compile-simple-type.ts:160-182) with
the walker frames inlined: each invocation is one frame; `args.visit(step,
child)` recurses at `concat(path, step)`. Control flow per frame: return the
cached node if present; else on a cyclic path with an assigned declaration
location, emit a reference via `compileReference` (throwing when
`current.outputLocation` is unset); else invoke `target.compileType` and
cache the result when its `shouldCache` is set. `fuel` models the JavaScript
call stack: exhaustion raises `RangeError("Maximum call stack size
exceeded")` as the engine does. The walker's error-message path annotation is
modeled separately by `walkRecursive` and elided here (it only appends to
messages). -/
def compileKernel (target : SimpleTypeCompilerTarget) :
    Nat → CompilerRun → SimpleTypePath → TypeId →
    Except JsException SimpleTypeCompilerNode × CompilerRun
  | 0, run, _, _ =>
    (.error ⟨.rangeError ("Maximum call stack size exceeded"), none⟩, run)
  | fuel + 1, run, path, type =>
    match run.current.program.getAstNode type with
    | some cachedNode => (.ok cachedNode, run)
    | none =>
      match (if SimpleTypePath.includes path type then
              run.current.program.getDeclarationLocation type
             else none) with
      | some declarationLocation =>
        match run.current.outputLocation with
        | none =>
          (.error ⟨.error ("Circular compilation: cannot create reference because current location is not set."), none⟩, run)
        | some fromLoc =>
          SimpleTypeCompiler.compileReference target run fromLoc declarationLocation
      | none =>
        let spec := target.compileType type path
        let run₁ : CompilerRun :=
          { run with backendCompileTypeCalls := run.backendCompileTypeCalls ++ [type] }
        match runBackendActsWith (fun r p c => compileKernel target fuel r p c)
            path spec.acts run₁ with
        | (.error e, run₂) => (.error e, run₂)
        | (.ok childNodes, run₂) =>
          let result := SimpleTypeCompilerNode.mk spec.flavor spec.shouldCache childNodes
          let run₃ :=
            if spec.shouldCache then
              { run₂ with current :=
                  { run₂.current with program := run₂.current.program.setAstNode type result } }
            else run₂
          (.ok result, run₃)

/-- The remediation message built by `compileType`'s catch handler
(compile-simple-type.ts:185-191): names the first type on the cyclic subpath
whose `name` is truthy, when one exists. -/
def circularCompilationMessage (tbl : TypeTable) (path : SimpleTypePath)
    (type : TypeId) : String :=
  let circularPart := SimpleTypePath.getSubpathFrom path type
  let firstNamedType : Option String :=
    match circularPart with
    | none => none
    | some cp =>
      match cp.find? (fun s => isTruthyName (tbl s.fromType).name) with
      | some s => (tbl s.fromType).name
      | none => none
  let inTypePart : String :=
    match firstNamedType with
    | some s => if s ≠ "" then "in type " ++ s ++ ": " else ""
    | none => ""
  let nameOrPlaceholder : String :=
    match firstNamedType with
    | some s => if s ≠ "" then s else "type"
    | none => "type"
  "Circular compilation: " ++ inTypePart ++ "use compiler.assignDeclarationLocation(" ++
    nameOrPlaceholder ++ ") before recursing, or build a reference node manually."

/-- `compileType(type, path = empty, outputLocation?)`
(compile-simple-type.ts:144-199): installs
`outputLocation ?? current.outputLocation` via `withState`, runs the walker
with the kernel, transforms an escaping `RangeError` whose message includes
"call stack size" into the targeted `Circular compilation` error with the
original attached as `cause`, and lets every other exception propagate. The
`finally` restores the `current` cell on both outcomes (the shared program
object keeps its mutations). -/
def SimpleTypeCompiler.compileType (tbl : TypeTable)
    (target : SimpleTypeCompilerTarget) (fuel : Nat) (run : CompilerRun)
    (type : TypeId) (path : SimpleTypePath)
    (outputLocation : Option SimpleTypeCompilerLocation) :
    Except JsException SimpleTypeCompilerNode × CompilerRun :=
  let saved := run.current
  let run₁ : CompilerRun :=
    { run with current :=
        { saved with outputLocation :=
            match outputLocation with
            | some l => some l
            | none => saved.outputLocation } }
  let inner := compileKernel target fuel run₁ path type
  let result : Except JsException SimpleTypeCompilerNode :=
    match inner.1 with
    | .ok node => .ok node
    | .error e =>
      if isStackSizeRangeError e then
        .error ⟨.error (circularCompilationMessage tbl path type), some e.value⟩
      else .error e
  (result, { inner.2 with current := { inner.2.current with outputLocation := saved.outputLocation } })

/-- `snakeCaseToCamelCase` (compile-simple-type.ts:410-413): the global
regex replace of `_x` (lowercase `x`) by `X` over the lowercased string. -/
def camelizeChars : List Char → List Char
  | [] => []
  | '_' :: c :: rest =>
    if c.isLower then c.toUpper :: camelizeChars rest
    else '_' :: camelizeChars (c :: rest)
  | c :: rest => c :: camelizeChars rest

/-- `snakeCaseToCamelCase(snakeCase)`: lowercase the string (char-wise; the
inputs are ASCII kind names), camelize `_x` groups, then upcase the leading
character (`slice(0, 1).toUpperCase() + slice(1)`). -/
def snakeCaseToCamelCase (s : String) : String :=
  match camelizeChars (s.toList.map Char.toLower) with
  | [] => String.mk []
  | c :: rest => String.mk (c.toUpper :: rest)

/-- The recursive visitor of `inferTypeName` (compile-simple-type.ts:262-306),
returning `some name` or `none` (JS `undefined`). The model's types carry no
`getTypescript` handle, so the `originalSimpleType` re-resolution step yields
the type itself. `fuel` bounds the recursion (on a cyclic anonymous type the
source itself would overflow the stack); all uses below stay within fuel. -/
def inferTypeNameVisitor (tbl : TypeTable) : Nat → TypeId → Option String
  | 0, _ => none
  | fuel + 1, t =>
    let info := tbl t
    if isTruthyName info.name then info.name
    else
      match info.kind with
      | .ARRAY =>
        match info.innerType.bind (inferTypeNameVisitor tbl fuel) with
        | some s => if s ≠ "" then some ("ArrayOf" ++ s) else some ("Array")
        | none => some ("Array")
      | .UNION =>
        let inner := info.types.map (inferTypeNameVisitor tbl fuel)
        let truthy := (inner.filterMap id).filter (fun s => s ≠ "")
        if truthy.isEmpty then some ("Union")
        else some (String.intercalate ("Or") truthy)
      | .INTERSECTION =>
        let inner := info.types.map (inferTypeNameVisitor tbl fuel)
        let truthy := (inner.filterMap id).filter (fun s => s ≠ "")
        if truthy.isEmpty then some ("Intersection")
        else some (String.intercalate ("And") truthy)
      | .GENERIC_ARGUMENTS =>
        let innerArgs := info.typeArguments.map (inferTypeNameVisitor tbl fuel)
        let truthyArgs := (innerArgs.filterMap id).filter (fun s => s ≠ "")
        let args : Option String :=
          if truthyArgs.isEmpty then none
          else some (String.intercalate ("And") truthyArgs)
        let genericName := (info.target.bind (inferTypeNameVisitor tbl fuel)).getD ("Generic")
        let outputName := info.instantiated.bind (inferTypeNameVisitor tbl fuel)
        let composed :=
          (if genericName ≠ "" then genericName else "Generic") ++
            (match args with | some _ => "Of" | none => "") ++
            (match args with | some s => s | none => "")
        match outputName with
        | some s => if s ≠ "" then some s else some composed
        | none => some composed
      | .ALIAS =>
        match info.target.bind (inferTypeNameVisitor tbl fuel) with
        | some s => if s ≠ "" then some s else none
        | none => none
      | _ => none

/-- `inferTypeName(rootType)` (compile-simple-type.ts:261-310): the type's
(or its structure's) derived name, defaulting to the camel-cased
`ANONYMOUS_<KIND>`. -/
def SimpleTypeCompiler.inferTypeName (tbl : TypeTable) (fuel : Nat)
    (rootType : TypeId) : String :=
  match inferTypeNameVisitor tbl fuel rootType with
  | some name => name
  | none => snakeCaseToCamelCase ("ANONYMOUS_" ++ (tbl rootType).kind.asString)

/-- `assignDeclarationLocation(type, location?)`
(compile-simple-type.ts:339-372): return the existing assignment when
present; otherwise resolve the suggested location (explicit argument →
backend's `suggestDeclarationLocation` → current file/namespace → empty),
take the base name (suggested name → `inferTypeName`), bump the counter
keyed by `(fileName, namespace, baseName)`, append the previous counter
value when positive, and record the unique location for the type. -/
def SimpleTypeCompiler.assignDeclarationLocation (tbl : TypeTable)
    (target : SimpleTypeCompilerTarget) (fuel : Nat) (run : CompilerRun)
    (type : TypeId) (location : Option SimpleTypeCompilerLocationOptName) :
    SimpleTypeCompilerDeclarationLocation × CompilerRun :=
  match run.current.program.getDeclarationLocation type with
  | some existingLocationForType => (existingLocationForType, run)
  | none =>
    let currentFilenameNamespace : Option SimpleTypeCompilerLocation :=
      run.current.outputLocation.map (fun l => { fileName := l.fileName, nspace := l.nspace })
    let suggestedLocation : SimpleTypeCompilerLocationOptName :=
      match location with
      | some l => l
      | none =>
        match target.suggestDeclarationLocation with
        | some suggest => suggest type (currentFilenameNamespace.getD NO_DESTINATION_LOCATION)
        | none =>
          match currentFilenameNamespace with
          | some l => { fileName := l.fileName, nspace := l.nspace }
          | none => { fileName := NO_DESTINATION_LOCATION.fileName,
                      nspace := NO_DESTINATION_LOCATION.nspace }
    let maybeUniqueLocation : SimpleTypeCompilerDeclarationLocation :=
      { name := suggestedLocation.name.getD (SimpleTypeCompiler.inferTypeName tbl fuel type),
        fileName := suggestedLocation.fileName,
        nspace := suggestedLocation.nspace }
    let count := run.current.program.getDeclarationLocationCount maybeUniqueLocation
    let prog₁ := run.current.program.setDeclarationLocationCount maybeUniqueLocation (count + 1)
    let uniqueLocation : SimpleTypeCompilerDeclarationLocation :=
      { maybeUniqueLocation with
        name :=
          if count > 0 then maybeUniqueLocation.name ++ toString count
          else maybeUniqueLocation.name }
    let prog₂ := prog₁.setDeclarationLocation type uniqueLocation
    (uniqueLocation, { run with current := { run.current with program := prog₂ } })

/-- One entry descriptor of `compileProgram`. -/
structure EntryPoint where
  inputType : TypeId
  outputLocation : SimpleTypeCompilerLocationOptName

/-- The entry-assignment loop of `compileProgram`
(compile-simple-type.ts:72-75): for each entry,
`program.entryPoints.set(type, assignDeclarationLocation(type, location))`
(`Map.set` keeps the first insertion position for an existing key; the
assigned location for an existing key is unchanged by idempotence). -/
def assignEntryPoints (tbl : TypeTable) (target : SimpleTypeCompilerTarget)
    (fuel : Nat) : List EntryPoint → CompilerRun → CompilerRun
  | [], run => run
  | entry :: rest, run =>
    let r := SimpleTypeCompiler.assignDeclarationLocation tbl target fuel run
      entry.inputType (some entry.outputLocation)
    let run₁ := r.2
    let program := run₁.current.program
    let program₁ :=
      if (program.entryPoints.find? (fun e => e.1 == entry.inputType)).isSome then program
      else { program with entryPoints := program.entryPoints ++ [(entry.inputType, r.1)] }
    assignEntryPoints tbl target fuel rest
      { run₁ with current := { run₁.current with program := program₁ } }

/-- The per-entry compilation loop of `compileProgram`
(compile-simple-type.ts:115-119): `compileType(type, undefined, location)`
for each recorded entry point, in order; an exception aborts the loop and
propagates. -/
def compileEntryList (tbl : TypeTable) (target : SimpleTypeCompilerTarget)
    (fuel : Nat) :
    List (TypeId × SimpleTypeCompilerDeclarationLocation) → CompilerRun →
    Except JsException (List SimpleTypeCompilerNode) × CompilerRun
  | [], run => (.ok [], run)
  | (type, location) :: rest, run =>
    match SimpleTypeCompiler.compileType tbl target fuel run type []
        (some { fileName := location.fileName, nspace := location.nspace }) with
    | (.error e, run₁) => (.error e, run₁)
    | (.ok node, run₁) =>
      match compileEntryList tbl target fuel rest run₁ with
      | (.error e, run₂) => (.error e, run₂)
      | (.ok nodes, run₂) => (.ok (node :: nodes), run₂)

/-- `compileProgram(entryPoints)` (compile-simple-type.ts:57-142), phases that
can reach the backend's `compileType`: install a fresh program with
`outputLocation = undefined` via `withState`; assign a declaration location
to every entry point before compiling anything; compile each entry point.
File packing (`assignNodeToFile`) and per-file rendering/serialization only
route already-built nodes and call `target.compileFile`; they never invoke
`target.compileType` and are not modeled. Returns the per-entry root nodes
and the output program; the `finally` restores the caller's `current` cell
(including its program reference) on both outcomes. -/
def SimpleTypeCompiler.compileProgram (tbl : TypeTable)
    (target : SimpleTypeCompilerTarget) (fuel : Nat) (run : CompilerRun)
    (entryPoints : List EntryPoint) :
    Except JsException (List SimpleTypeCompilerNode) ×
      SimpleTypeCompilerProgram × CompilerRun :=
  let saved := run.current
  let run₁ : CompilerRun :=
    { run with current := { outputLocation := none, program := {} } }
  let run₂ := assignEntryPoints tbl target fuel entryPoints run₁
  let r := compileEntryList tbl target fuel run₂.current.program.entryPoints run₂
  (r.1, r.2.current.program, { r.2 with current := saved })

-- ===========================================================================
-- Type-source adapter cache (src/index.ts:1372-1459)
-- ===========================================================================

/-- The value returned by `toSimpleTypeCached` for one host type: in eager
mode the resolved record, frozen (`Object.freeze(placeholder)`) before being
returned; in lazy mode a `Proxy` around the placeholder whose `set` trap
unconditionally throws. The carried `TypeInfo` is the content the
placeholder is (eventually) populated with by `resolveType`. -/
inductive AdaptedSimpleType where
  | frozenObject (value : TypeInfo)
  | lazyProxy (value : TypeInfo)
deriving DecidableEq, Repr

/-- `toSimpleTypeCached(type, options)` (src/index.ts:1372-1459), restricted
to its caching and mutability skeleton: host types are ids, `resolve` stands
for `toSimpleTypeInternal`, and the in-place placeholder population (which
matters only for constructing cyclic values) is folded into the resolved
content. Cache hits return the previously adapted value unchanged; otherwise
eager mode caches, resolves and freezes the placeholder, while lazy mode
caches and returns the proxy. -/
def toSimpleTypeCached (eager : Bool) (resolve : Nat → TypeInfo) (hostType : Nat)
    (cache : List (Nat × AdaptedSimpleType)) :
    AdaptedSimpleType × List (Nat × AdaptedSimpleType) :=
  match cache.find? (fun e => e.1 == hostType) with
  | some e => (e.2, cache)
  | none =>
    if eager then
      let placeholder := AdaptedSimpleType.frozenObject (resolve hostType)
      (placeholder, (hostType, placeholder) :: cache)
    else
      let proxy := AdaptedSimpleType.lazyProxy (resolve hostType)
      (proxy, (hostType, proxy) :: cache)

/-- ECMAScript semantics of the property assignment `adapted[p] = v` on an
adapter result: an assignment to a frozen object is rejected, leaving the
object unchanged (strict-mode code would additionally throw); an assignment
through the lazy proxy runs the `set` trap (src/index.ts:1450-1452), which
throws `TypeError` with the read-only-property message. -/
def jsSetProperty (adapted : AdaptedSimpleType) (p : String) :
    Except JsException AdaptedSimpleType :=
  match adapted with
  | .frozenObject v => .ok (.frozenObject v)
  | .lazyProxy _ =>
    .error ⟨.typeError ("Cannot assign to read only property '" ++ p ++ "'"), none⟩

-- ===========================================================================
-- Kind-specific edge enumerators (src/visitor.ts, first draft:
-- CallableVisitors / VariantTypesVisitors / ObjectLikeVisitors / KindVisitors,
-- visitor.ts:204-282). Each enumerator takes the `visit` callback abstractly:
-- `visit step child` stands for `args.visit(step, child)`.
-- ===========================================================================

/-- JS `array.map((x, i) => f(x, i))` with an explicit running index. -/
def mapWithIndexFrom {α β : Type} (f : Nat → α → β) : Nat → List α → List β
  | _, [] => []
  | i, a :: rest => f i a :: mapWithIndexFrom f (i + 1) rest

/-- JS `array.map((x, i) => f(i, x))`. -/
def mapWithIndex {α β : Type} (f : Nat → α → β) (l : List α) : List β :=
  mapWithIndexFrom f 0 l

/-- `mapVariants` (ENUM / UNION / INTERSECTION):
`type.types.map((variant, i) => visit({from, index: i, step: "VARIANT"}, variant))`. -/
def Visitor.mapVariants {R : Type} (tbl : TypeTable) (visit : Step → TypeId → R)
    (type : TypeId) : List R :=
  mapWithIndex
    (fun i variant => visit { step := .VARIANT, fromType := type, index := i } variant)
    (tbl type).types

/-- `mapTypeParameters` (FUNCTION / METHOD / object-like / ALIAS):
`type.typeParameters?.map((param, i) => visit({from, index: i, step:
"TYPE_PARAMETER", name: param.name}, param)) ?? []`. -/
def Visitor.mapTypeParameters {R : Type} (tbl : TypeTable)
    (visit : Step → TypeId → R) (type : TypeId) : List R :=
  ((tbl type).typeParameters.map (mapWithIndex
    (fun i param =>
      visit { step := .TYPE_PARAMETER, fromType := type, index := i,
              name := (tbl param).name } param))).getD []

/-- `mapParameters` (FUNCTION / METHOD):
`type.parameters?.map((param, i) => visit({from, index: i, step: "PARAMETER",
parameter: param}, param.type)) ?? []`. -/
def Visitor.mapParameters {R : Type} (tbl : TypeTable)
    (visit : Step → TypeId → R) (type : TypeId) : List R :=
  ((tbl type).parameters.map (mapWithIndex
    (fun i param =>
      visit { step := .PARAMETER, fromType := type, index := i,
              parameter := some param } param.type))).getD []

/-- The `return` enumerator (FUNCTION / METHOD):
`type.returnType && visit({from, step: "RETURN"}, type.returnType)`
(`return` is a Lean keyword, hence the name). -/
def Visitor.returnVisitor {R : Type} (tbl : TypeTable)
    (visit : Step → TypeId → R) (type : TypeId) : Option R :=
  ((tbl type).returnType).map (fun r => visit { step := .RETURN, fromType := type } r)

/-- `callSignature` (object-like): `type.call && visit({from, step:
"CALL_SIGNATURE"}, type.call)`. -/
def Visitor.callSignature {R : Type} (tbl : TypeTable)
    (visit : Step → TypeId → R) (type : TypeId) : Option R :=
  ((tbl type).call).map (fun c => visit { step := .CALL_SIGNATURE, fromType := type } c)

/-- `ctorSignature` (object-like): `type.ctor && visit({from, step:
"CTOR_SIGNATURE"}, type.ctor)`. -/
def Visitor.ctorSignature {R : Type} (tbl : TypeTable)
    (visit : Step → TypeId → R) (type : TypeId) : Option R :=
  ((tbl type).ctor).map (fun c => visit { step := .CTOR_SIGNATURE, fromType := type } c)

/-- `mapNamedMembers` (object-like): `type.members?.map((member, i) =>
visit({from, index: i, step: "NAMED_MEMBER", member}, member.type)) ?? []`. -/
def Visitor.mapNamedMembers {R : Type} (tbl : TypeTable)
    (visit : Step → TypeId → R) (type : TypeId) : List R :=
  ((tbl type).members.map (mapWithIndex
    (fun i m =>
      visit { step := .NAMED_MEMBER, fromType := type, index := i,
              member := some m } m.type))).getD []

/-- `numberIndex` (object-like): `type.indexType?.NUMBER && visit({from,
step: "NUMBER_INDEX"}, type.indexType.NUMBER)`. -/
def Visitor.numberIndex {R : Type} (tbl : TypeTable)
    (visit : Step → TypeId → R) (type : TypeId) : Option R :=
  ((tbl type).indexTypeNUMBER).map
    (fun x => visit { step := .NUMBER_INDEX, fromType := type } x)

/-- `stringIndex` (object-like): `type.indexType?.STRING && visit({from,
step: "STRING_INDEX"}, type.indexType.STRING)`. -/
def Visitor.stringIndex {R : Type} (tbl : TypeTable)
    (visit : Step → TypeId → R) (type : TypeId) : Option R :=
  ((tbl type).indexTypeSTRING).map
    (fun x => visit { step := .STRING_INDEX, fromType := type } x)

/-- `GENERIC_ARGUMENTS.aliased`: `visit({from, step: "ALIASED"},
type.instantiated)` (required field; `none` only on ill-formed tables). -/
def Visitor.genericArgumentsAliased {R : Type} (tbl : TypeTable)
    (visit : Step → TypeId → R) (type : TypeId) : Option R :=
  ((tbl type).instantiated).map (fun x => visit { step := .ALIASED, fromType := type } x)

/-- `GENERIC_ARGUMENTS.genericTarget`: `visit({from, step: "GENERIC_TARGET"},
type.target)`. -/
def Visitor.genericTarget {R : Type} (tbl : TypeTable)
    (visit : Step → TypeId → R) (type : TypeId) : Option R :=
  ((tbl type).target).map (fun x => visit { step := .GENERIC_TARGET, fromType := type } x)

/-- `mapGenericArguments`: `type.typeArguments.map((arg, i) => visit({from,
index: i, step: "GENERIC_ARGUMENT", name: arg.name}, arg))`. -/
def Visitor.mapGenericArguments {R : Type} (tbl : TypeTable)
    (visit : Step → TypeId → R) (type : TypeId) : List R :=
  mapWithIndex
    (fun i arg =>
      visit { step := .GENERIC_ARGUMENT, fromType := type, index := i,
              name := (tbl arg).name } arg)
    (tbl type).typeArguments

/-- `GENERIC_PARAMETER.typeParameterConstraint`: `type.constraint &&
visit({from, step: "TYPE_PARAMETER_CONSTRAINT"}, type.constraint)`. -/
def Visitor.typeParameterConstraint {R : Type} (tbl : TypeTable)
    (visit : Step → TypeId → R) (type : TypeId) : Option R :=
  ((tbl type).constraint).map
    (fun c => visit { step := .TYPE_PARAMETER_CONSTRAINT, fromType := type } c)

/-- `GENERIC_PARAMETER.typeParameterDefault`: `type.default && visit({from,
step: "TYPE_PARAMETER_DEFAULT"}, type.default)`. -/
def Visitor.typeParameterDefault {R : Type} (tbl : TypeTable)
    (visit : Step → TypeId → R) (type : TypeId) : Option R :=
  ((tbl type).defaultType).map
    (fun d => visit { step := .TYPE_PARAMETER_DEFAULT, fromType := type } d)

/-- `TUPLE.mapIndexedMembers`: `type.members?.map((member, i) => visit({from,
index: i, step: "INDEXED_MEMBER", member}, member.type))` (tuple members are
a required field). -/
def Visitor.mapIndexedMembers {R : Type} (tbl : TypeTable)
    (visit : Step → TypeId → R) (type : TypeId) : List R :=
  mapWithIndex
    (fun i m =>
      visit { step := .INDEXED_MEMBER, fromType := type, index := i,
              indexedMember := some m } m.type)
    (tbl type).tupleMembers

/-- `ALIAS.aliased`: `visit({from, step: "ALIASED"}, type.target)`. -/
def Visitor.aliasAliased {R : Type} (tbl : TypeTable)
    (visit : Step → TypeId → R) (type : TypeId) : Option R :=
  ((tbl type).target).map (fun x => visit { step := .ALIASED, fromType := type } x)

/-- `ARRAY.numberIndex`: `visit({from, step: "NUMBER_INDEX"}, type.type)`. -/
def Visitor.arrayNumberIndex {R : Type} (tbl : TypeTable)
    (visit : Step → TypeId → R) (type : TypeId) : Option R :=
  ((tbl type).innerType).map (fun x => visit { step := .NUMBER_INDEX, fromType := type } x)

/-- `PROMISE.awaited`: `visit({from, step: "AWAITED"}, type.type)`. -/
def Visitor.awaited {R : Type} (tbl : TypeTable)
    (visit : Step → TypeId → R) (type : TypeId) : Option R :=
  ((tbl type).innerType).map (fun x => visit { step := .AWAITED, fromType := type } x)

/-- `ENUM_MEMBER.aliased`: `visit({from, step: "ALIASED"}, type.type)`. -/
def Visitor.enumMemberAliased {R : Type} (tbl : TypeTable)
    (visit : Step → TypeId → R) (type : TypeId) : Option R :=
  ((tbl type).innerType).map (fun x => visit { step := .ALIASED, fromType := type } x)

-- ===========================================================================
-- Concrete instances used by witnesses and counterexamples below
-- ===========================================================================

/-- A two-member chain: type 0 is named "Root", everything else is an
anonymous object. -/
def exTbl : TypeTable := fun t =>
  if t == 0 then { kind := .OBJECT, name := some ("Root") } else { kind := .OBJECT }

/-- A stand-in for `simpleTypeToString` in examples. -/
def exRender : TypeId → String := fun _ => "?"

/-- Member step 0 → 1 named "a". -/
def exStepA : Step :=
  { step := .NAMED_MEMBER, fromType := 0, index := 0,
    member := some { name := "a", type := 1 } }

/-- Member step 1 → 2 named "b". -/
def exStepB : Step :=
  { step := .NAMED_MEMBER, fromType := 1, index := 0,
    member := some { name := "b", type := 2 } }

/-- A visitor that descends two frames and throws `Error(7, "boom")`. -/
def exProg : VisitorProg :=
  .visitChild exStepA 1 (.visitChild exStepB 2 (.throwErr 7 "boom"))

/-- A self-step on type 40, making `[exArgsStep]` cyclic for type 40. -/
def exArgsStep : Step :=
  { step := .NAMED_MEMBER, fromType := 40, index := 0,
    member := some { name := "next", type := 40 } }

/-- A wrapped visitor returning 1. -/
def exVisitorOne : VisitArgs Unit → Nat := fun _ => 1

/-- A wrapped visitor returning 2. -/
def exVisitorTwo : VisitArgs Unit → Nat := fun _ => 2

/-- Visitor args at type 40 on a path that already contains a step from 40. -/
def exArgs : VisitArgs Unit := { type := 40, path := [exArgsStep], visit := () }

/-- A union with three variants (type 30) and a function with no declared
return type (type 31). -/
def exTblC7 : TypeTable := fun t =>
  if t == 30 then { kind := .UNION, types := [1, 2, 3] }
  else if t == 31 then { kind := .FUNCTION }
  else { kind := .STRING }

/-- The declaration location assigned to the cyclic type 21. -/
def exDeclLoc : SimpleTypeCompilerDeclarationLocation := { fileName := "w.out", name := "Node" }

/-- The current output location when type 21 is re-encountered. -/
def exFromLoc : SimpleTypeCompilerLocation := { fileName := "w.out" }

/-- A self-step on type 21 named "next". -/
def exStepC2 : Step :=
  { step := .NAMED_MEMBER, fromType := 21, index := 0,
    member := some { name := "next", type := 21 } }

/-- A backend whose `compileReference` returns a cacheable plain node. -/
def exTargetC2 : SimpleTypeCompilerTarget :=
  { compileType := fun _ _ => { acts := [], flavor := .plain },
    compileReference := fun _ _ => .ok (.mk .plain true []) }

/-- A run in which type 21 already has a declaration location and the
current output location is set. -/
def exRunC2 : CompilerRun :=
  { current := { outputLocation := some exFromLoc,
                 program := { typeToDeclarationLocation := [(21, exDeclLoc)] } } }

/-- Type 5 is a named interface with a member of its own type. -/
def tblC8 : TypeTable := fun t =>
  if t == 5 then { kind := .INTERFACE, name := some ("Foo"),
                   members := some [{ name := "self", type := 5 }] }
  else { kind := .STRING }

/-- The self-member step of type 5. -/
def stepC8 : Step :=
  { step := .NAMED_MEMBER, fromType := 5, index := 0,
    member := some { name := "self", type := 5 } }

/-- A backend that recurses into type 5 forever, without ever assigning a
declaration location — the stack-overflow scenario. -/
def targetC8 : SimpleTypeCompilerTarget :=
  { compileType := fun _ _ => { acts := [.visit stepC8 5], flavor := .plain },
    compileReference := fun _ _ => .ok (.mk .plain true []) }

/-- An empty run with no current output location. -/
def runC8 : CompilerRun := { current := { outputLocation := none, program := {} } }

/-- Every type is an anonymous object. -/
def tblC3 : TypeTable := fun _ => { kind := .OBJECT }

/-- A trivial backend with no `suggestDeclarationLocation` hook. -/
def targetC3 : SimpleTypeCompilerTarget :=
  { compileType := fun _ _ => { acts := [], flavor := .plain },
    compileReference := fun _ _ => .ok (SimpleTypeCompilerNode.mk .plain true []) }

/-- An empty run with no current output location. -/
def runC3 : CompilerRun :=
  { current := { outputLocation := none, program := {} } }

/-- Type 10 is the named entry interface with a member of type 11; type 11 is
an anonymous object. -/
def tblC1 : TypeTable := fun t =>
  if t == 10 then { kind := .INTERFACE, name := some ("Entry"),
                    members := some [{ name := "x", type := 11 }] }
  else if t == 11 then { kind := .OBJECT }
  else { kind := .STRING }

/-- Member step 10 → 11. -/
def stepC1a : Step :=
  { step := .NAMED_MEMBER, fromType := 10, index := 0,
    member := some { name := "x", type := 11 } }

/-- Self-step 11 → 11. -/
def stepC1b : Step :=
  { step := .NAMED_MEMBER, fromType := 11, index := 0,
    member := some { name := "self", type := 11 } }

/-- A backend that, while compiling type 11 at a short path, re-enters type
11 (which is still in progress and has no declaration location); at longer
paths it emits a leaf. Every node it returns keeps the default
`shouldCache = true`. -/
def targetC1 : SimpleTypeCompilerTarget :=
  { compileType := fun type path =>
      if type == 11 then
        (if path.length ≤ 1 then { acts := [.visit stepC1b 11], flavor := .plain }
         else { acts := [], flavor := .plain })
      else { acts := [.visit stepC1a 11], flavor := .plain },
    compileReference := fun _ _ => .ok (.mk .plain true []) }

/-- An empty run. -/
def runC1 : CompilerRun := { current := { outputLocation := none, program := {} } }

/-- One entry point: type 10 declared as "Entry" in file "a.out". -/
def entriesC1 : List EntryPoint :=
  [{ inputType := 10, outputLocation := { fileName := "a.out", name := some ("Entry") } }]

/-- A run in which type 50 already has a cached AST node. -/
def exRunC1w : CompilerRun :=
  { current :=
      { outputLocation := none,
        program := { typeToAstNode := [(50, SimpleTypeCompilerNode.mk .plain true [])] } } }

-- ===========================================================================
-- Helper lemmas
-- ===========================================================================

/-- Looking up a type right after `setDeclarationLocation` returns the stored
location. -/
theorem getDeclarationLocation_set_same (p : SimpleTypeCompilerProgram) (t : TypeId)
    (loc : SimpleTypeCompilerDeclarationLocation) :
    (p.setDeclarationLocation t loc).getDeclarationLocation t = some loc := by
  simp [SimpleTypeCompilerProgram.setDeclarationLocation,
        SimpleTypeCompilerProgram.getDeclarationLocation, List.find?]

/-- Reading a counter right after `setDeclarationLocationCount` on the same
location returns the stored count. -/
theorem getCount_setCount_same (p : SimpleTypeCompilerProgram)
    (loc : SimpleTypeCompilerDeclarationLocation) (c : Nat) :
    (p.setDeclarationLocationCount loc c).getDeclarationLocationCount loc = c := by
  simp [SimpleTypeCompilerProgram.setDeclarationLocationCount,
        SimpleTypeCompilerProgram.getDeclarationLocationCount, List.find?]

/-- `setDeclarationLocation` leaves the name counters untouched. -/
theorem getCount_setDeclarationLocation (p : SimpleTypeCompilerProgram)
    (t : TypeId) (loc' loc : SimpleTypeCompilerDeclarationLocation) :
    (p.setDeclarationLocation t loc').getDeclarationLocationCount loc =
      p.getDeclarationLocationCount loc := rfl

/-- `mapWithIndexFrom` preserves length. -/
theorem mapWithIndexFrom_length {α β : Type} (f : Nat → α → β) (k : Nat) (l : List α) :
    (mapWithIndexFrom f k l).length = l.length := by
  induction l generalizing k with
  | nil => simp [mapWithIndexFrom]
  | cons a rest ih => simp [mapWithIndexFrom, ih]

/-- Element `i` of `mapWithIndexFrom f k l` is `f (k + i)` of element `i`. -/
theorem mapWithIndexFrom_getElem? {α β : Type} (f : Nat → α → β) (k : Nat)
    (l : List α) (i : Nat) :
    (mapWithIndexFrom f k l)[i]? = (l[i]?).map (f (k + i)) := by
  induction l generalizing k i with
  | nil => simp [mapWithIndexFrom]
  | cons a rest ih =>
    cases i with
    | zero => simp [mapWithIndexFrom]
    | succ n =>
      have h : k + 1 + n = k + (n + 1) := by omega
      simp [mapWithIndexFrom, ih (k + 1) n, h]

/-- `mapWithIndex` preserves length. -/
theorem mapWithIndex_length {α β : Type} (f : Nat → α → β) (l : List α) :
    (mapWithIndex f l).length = l.length := mapWithIndexFrom_length f 0 l

/-- Element `i` of `mapWithIndex f l` is `f i` of element `i` of `l`. -/
theorem mapWithIndex_getElem? {α β : Type} (f : Nat → α → β) (l : List α) (i : Nat) :
    (mapWithIndex f l)[i]? = (l[i]?).map (f i) := by
  simpa using mapWithIndexFrom_getElem? f 0 l i

/-- `includes(path, t)` holds exactly when `getSubpathFrom(path, t)` yields a
subpath (both scan for the first step originating at `t`). -/
theorem includes_iff_getSubpathFrom_isSome (path : SimpleTypePath) (t : TypeId) :
    SimpleTypePath.includes path t = true ↔
      (SimpleTypePath.getSubpathFrom path t).isSome = true := by
  unfold SimpleTypePath.includes SimpleTypePath.getSubpathFrom
  rw [← List.findIdx?_isSome]
  cases hf : List.findIdx? (fun s => s.fromType == t) path <;> simp [hf]

-- ===========================================================================
-- C4, C10, C9
-- ===========================================================================

/-- C4: `assignDeclarationLocation` is idempotent per `(type, program)`:
calling it again for the same type — with any location argument and any
recursion budget — returns the same declaration location and leaves the run
unchanged, so a later explicit location argument never overrides an existing
assignment. -/
theorem assignDeclarationLocation_idempotent
    (tbl : TypeTable) (target : SimpleTypeCompilerTarget) (fuel₁ fuel₂ : Nat)
    (run : CompilerRun) (type : TypeId)
    (loc₁ loc₂ : Option SimpleTypeCompilerLocationOptName) :
    SimpleTypeCompiler.assignDeclarationLocation tbl target fuel₂
        (SimpleTypeCompiler.assignDeclarationLocation tbl target fuel₁ run type loc₁).2
        type loc₂ =
      SimpleTypeCompiler.assignDeclarationLocation tbl target fuel₁ run type loc₁ := by
  cases h : run.current.program.getDeclarationLocation type with
  | some l =>
    simp [SimpleTypeCompiler.assignDeclarationLocation, h]
  | none =>
    simp [SimpleTypeCompiler.assignDeclarationLocation, h,
          getDeclarationLocation_set_same]

/-- C10: every value produced by the adapter cache rejects mutation: in eager
mode the returned object is the frozen resolved record and a property
assignment leaves it unchanged; in lazy mode the returned proxy's set trap
throws `TypeError("Cannot assign to read only property '<p>'")` for every
property assignment; consequently no write to an adapted type ever succeeds
(every adapted value either ignores the write or throws the TypeError). -/
theorem toSimpleTypeCached_rejects_mutation
    (resolve : Nat → TypeInfo) (hostType : Nat) (p : String) :
    ((toSimpleTypeCached true resolve hostType []).1 = .frozenObject (resolve hostType) ∧
      jsSetProperty (toSimpleTypeCached true resolve hostType []).1 p =
        .ok (toSimpleTypeCached true resolve hostType []).1) ∧
    ((toSimpleTypeCached false resolve hostType []).1 = .lazyProxy (resolve hostType) ∧
      jsSetProperty (toSimpleTypeCached false resolve hostType []).1 p =
        .error ⟨.typeError ("Cannot assign to read only property '" ++ p ++ "'"), none⟩) ∧
    (∀ a : AdaptedSimpleType,
      jsSetProperty a p = .ok a ∨ ∃ m, jsSetProperty a p = .error ⟨.typeError m, none⟩) := by
  refine ⟨⟨rfl, rfl⟩, ⟨rfl, rfl⟩, ?_⟩
  intro a
  cases a with
  | frozenObject v => exact Or.inl rfl
  | lazyProxy v => exact Or.inr ⟨_, rfl⟩

/-- C9: the scoped `current` cell is restored after every nested call, on
success and on exception alike: `compileType` and `compileReference` leave
the caller's `current.outputLocation` exactly as it was before the call (the
shared program object threads through by reference), and `compileProgram`
restores the caller's whole `current` cell including its program reference.
The equations hold unconditionally, hence in particular when the call
returns an error. -/
theorem current_restored_after_nested_calls
    (tbl : TypeTable) (target : SimpleTypeCompilerTarget) (fuel : Nat)
    (run : CompilerRun) (type : TypeId) (path : SimpleTypePath)
    (outputLocation : Option SimpleTypeCompilerLocation)
    (fromLoc : SimpleTypeCompilerLocation)
    (toLoc : SimpleTypeCompilerDeclarationLocation)
    (entryPoints : List EntryPoint) :
    ((SimpleTypeCompiler.compileType tbl target fuel run type path outputLocation).2.current.outputLocation
        = run.current.outputLocation) ∧
    ((SimpleTypeCompiler.compileReference target run fromLoc toLoc).2.current.outputLocation
        = run.current.outputLocation) ∧
    ((SimpleTypeCompiler.compileProgram tbl target fuel run entryPoints).2.2.current
        = run.current) := by
  refine ⟨?_, ?_, ?_⟩
  · simp [SimpleTypeCompiler.compileType]
  · cases h : target.compileReference fromLoc toLoc <;>
      simp [SimpleTypeCompiler.compileReference, h]
  · simp [SimpleTypeCompiler.compileProgram]

-- ===========================================================================
-- C7, C6, C2
-- ===========================================================================

/-- C7: every list enumerator (`mapVariants`, `mapNamedMembers`,
`mapParameters`, `mapIndexedMembers`, `mapGenericArguments`,
`mapTypeParameters`) visits the outgoing edges and returns results in
exactly the source order of the underlying sequence (same length, and the
i-th result is the visit of the i-th element with step index i), and every
single-edge enumerator (`return`, `callSignature`, `ctorSignature`,
`stringIndex`, `numberIndex`, `typeParameterConstraint`,
`typeParameterDefault`) returns nothing when the corresponding optional slot
of the type is empty. -/
theorem enumerators_source_order_and_empty_slots
    (tbl : TypeTable) {R : Type} (visit : Step → TypeId → R) (t : TypeId) :
    ((Visitor.mapVariants tbl visit t).length = (tbl t).types.length ∧
      ∀ i, (Visitor.mapVariants tbl visit t)[i]? = ((tbl t).types[i]?).map
        (fun v => visit { step := .VARIANT, fromType := t, index := i } v)) ∧
    ((Visitor.mapNamedMembers tbl visit t).length = ((tbl t).members.getD []).length ∧
      ∀ i, (Visitor.mapNamedMembers tbl visit t)[i]? = (((tbl t).members.getD [])[i]?).map
        (fun m => visit { step := .NAMED_MEMBER, fromType := t, index := i,
                          member := some m } m.type)) ∧
    ((Visitor.mapParameters tbl visit t).length = ((tbl t).parameters.getD []).length ∧
      ∀ i, (Visitor.mapParameters tbl visit t)[i]? = (((tbl t).parameters.getD [])[i]?).map
        (fun param => visit { step := .PARAMETER, fromType := t, index := i,
                              parameter := some param } param.type)) ∧
    ((Visitor.mapIndexedMembers tbl visit t).length = (tbl t).tupleMembers.length ∧
      ∀ i, (Visitor.mapIndexedMembers tbl visit t)[i]? = ((tbl t).tupleMembers[i]?).map
        (fun m => visit { step := .INDEXED_MEMBER, fromType := t, index := i,
                          indexedMember := some m } m.type)) ∧
    ((Visitor.mapGenericArguments tbl visit t).length = (tbl t).typeArguments.length ∧
      ∀ i, (Visitor.mapGenericArguments tbl visit t)[i]? = ((tbl t).typeArguments[i]?).map
        (fun arg => visit { step := .GENERIC_ARGUMENT, fromType := t, index := i,
                            name := (tbl arg).name } arg)) ∧
    ((Visitor.mapTypeParameters tbl visit t).length = ((tbl t).typeParameters.getD []).length ∧
      ∀ i, (Visitor.mapTypeParameters tbl visit t)[i]? = (((tbl t).typeParameters.getD [])[i]?).map
        (fun param => visit { step := .TYPE_PARAMETER, fromType := t, index := i,
                              name := (tbl param).name } param)) ∧
    ((tbl t).returnType = none → Visitor.returnVisitor tbl visit t = none) ∧
    ((tbl t).call = none → Visitor.callSignature tbl visit t = none) ∧
    ((tbl t).ctor = none → Visitor.ctorSignature tbl visit t = none) ∧
    ((tbl t).indexTypeSTRING = none → Visitor.stringIndex tbl visit t = none) ∧
    ((tbl t).indexTypeNUMBER = none → Visitor.numberIndex tbl visit t = none) ∧
    ((tbl t).constraint = none → Visitor.typeParameterConstraint tbl visit t = none) ∧
    ((tbl t).defaultType = none → Visitor.typeParameterDefault tbl visit t = none) := by
  refine ⟨⟨?_, ?_⟩, ⟨?_, ?_⟩, ⟨?_, ?_⟩, ⟨?_, ?_⟩, ⟨?_, ?_⟩, ⟨?_, ?_⟩,
    ?_, ?_, ?_, ?_, ?_, ?_, ?_⟩
  · simp [Visitor.mapVariants, mapWithIndex_length]
  · intro i; simp [Visitor.mapVariants, mapWithIndex_getElem?]
  · cases h : (tbl t).members <;>
      simp [Visitor.mapNamedMembers, h, mapWithIndex_length]
  · intro i
    cases h : (tbl t).members <;>
      simp [Visitor.mapNamedMembers, h, mapWithIndex_getElem?]
  · cases h : (tbl t).parameters <;>
      simp [Visitor.mapParameters, h, mapWithIndex_length]
  · intro i
    cases h : (tbl t).parameters <;>
      simp [Visitor.mapParameters, h, mapWithIndex_getElem?]
  · simp [Visitor.mapIndexedMembers, mapWithIndex_length]
  · intro i; simp [Visitor.mapIndexedMembers, mapWithIndex_getElem?]
  · simp [Visitor.mapGenericArguments, mapWithIndex_length]
  · intro i; simp [Visitor.mapGenericArguments, mapWithIndex_getElem?]
  · cases h : (tbl t).typeParameters <;>
      simp [Visitor.mapTypeParameters, h, mapWithIndex_length]
  · intro i
    cases h : (tbl t).typeParameters <;>
      simp [Visitor.mapTypeParameters, h, mapWithIndex_getElem?]
  · intro h; simp [Visitor.returnVisitor, h]
  · intro h; simp [Visitor.callSignature, h]
  · intro h; simp [Visitor.ctorSignature, h]
  · intro h; simp [Visitor.stringIndex, h]
  · intro h; simp [Visitor.numberIndex, h]
  · intro h; simp [Visitor.typeParameterConstraint, h]
  · intro h; simp [Visitor.typeParameterDefault, h]

/-- Witness for C7: on a concrete union, the variant enumerator's second
result is the visit of the second variant with step index 1, and the
`return` enumerator of a function without a declared return type is empty. -/
theorem enumerators_witness :
    (Visitor.mapVariants exTblC7 (fun s c => (s, c)) 30)[1]? =
      some ({ step := .VARIANT, fromType := 30, index := 1 }, 2) ∧
    Visitor.returnVisitor exTblC7 (fun s c => (s, c)) 31 = none := by
  have h := enumerators_source_order_and_empty_slots exTblC7 (fun s c => (s, c)) 30
  have h31 := enumerators_source_order_and_empty_slots exTblC7 (fun s c => (s, c)) 31
  constructor
  · rw [h.1.2 1]; rfl
  · exact h31.2.2.2.2.2.2.1 rfl

/-- C6: the recursive walker performs no cycle prevention itself — it runs
the visitor and returns its result even when the visited type already
originates a step of the current path; cycle handling is the opt-in
combinator `Cyclical.preventCycles`: with a cycle present it returns a
`Cyclical` value carrying exactly `getSubpathFrom(path, type)` and its
result does not depend on the wrapped visitor (it is never invoked), and
with no cycle it returns the wrapped visitor's result on the same args. -/
theorem walker_no_cycle_prevention_preventCycles_optIn
    (render : TypeId → String) (tbl : TypeTable) (path : SimpleTypePath)
    (t : TypeId) (v : Nat) (ann : AnnotatedErrorSet)
    {V T : Type} (visitor visitor' : VisitArgs V → T) (args : VisitArgs V) :
    (walkRecursive render tbl path t (.ret v) ann = (.ok v, ann)) ∧
    (SimpleTypePath.includes args.path args.type = true →
      Cyclical.preventCycles visitor args =
        .cyclical ((SimpleTypePath.getSubpathFrom args.path args.type).getD []) ∧
      Cyclical.preventCycles visitor args = Cyclical.preventCycles visitor' args) ∧
    (SimpleTypePath.includes args.path args.type = false →
      Cyclical.preventCycles visitor args = .result (visitor args)) := by
  refine ⟨rfl, ?_, ?_⟩
  · intro h
    rw [includes_iff_getSubpathFrom_isSome] at h
    rcases Option.isSome_iff_exists.mp h with ⟨c, hc⟩
    constructor <;> simp [Cyclical.preventCycles, hc]
  · intro h
    have h' : (SimpleTypePath.getSubpathFrom args.path args.type).isSome = false := by
      by_contra hx
      have : (SimpleTypePath.getSubpathFrom args.path args.type).isSome = true := by
        revert hx; cases (SimpleTypePath.getSubpathFrom args.path args.type).isSome <;> simp
      rw [← includes_iff_getSubpathFrom_isSome] at this
      rw [this] at h; cases h
    have hn : SimpleTypePath.getSubpathFrom args.path args.type = none :=
      Option.not_isSome_iff_eq_none.mp (by simp [h'])
    simp [Cyclical.preventCycles, hn]

/-- Witness for C6: the walker returns the visitor's value on a cyclic path,
and on the same cyclic args `preventCycles` yields the `Cyclical` subpath
identically for two different wrapped visitors. -/
theorem preventCycles_witness :
    walkRecursive exRender exTbl [exArgsStep] 40 (.ret 7) [] = (.ok 7, []) ∧
    Cyclical.preventCycles exVisitorOne exArgs =
      .cyclical ((SimpleTypePath.getSubpathFrom exArgs.path exArgs.type).getD []) ∧
    Cyclical.preventCycles exVisitorOne exArgs = Cyclical.preventCycles exVisitorTwo exArgs := by
  have h := walker_no_cycle_prevention_preventCycles_optIn exRender exTbl
      [exArgsStep] 40 7 [] exVisitorOne exVisitorTwo exArgs
  exact ⟨h.1, (h.2.1 (by decide)).1, (h.2.1 (by decide)).2⟩

/-- C2: when the kernel encounters a type with no cached node on a path that
already contains it, and the program holds an assigned declaration location
for it and the current output location is set, the emitted node is exactly
the result of `compileReference({from: current.outputLocation, to:
{location}})`, the backend's `compileType` is not invoked (the walker does
not recurse further into the type), and whenever the backend's
`compileReference` returns a cacheable plain node the emitted node is a
reference node with `refersTo` equal to the assigned location. -/
theorem compileType_cycle_emits_reference
    (target : SimpleTypeCompilerTarget) (fuel : Nat) (run : CompilerRun)
    (path : SimpleTypePath) (type : TypeId)
    (declLoc : SimpleTypeCompilerDeclarationLocation)
    (fromLoc : SimpleTypeCompilerLocation)
    (hcache : run.current.program.getAstNode type = none)
    (hpath : SimpleTypePath.includes path type = true)
    (hdecl : run.current.program.getDeclarationLocation type = some declLoc)
    (hout : run.current.outputLocation = some fromLoc) :
    compileKernel target (fuel + 1) run path type =
      SimpleTypeCompiler.compileReference target run fromLoc declLoc ∧
    (SimpleTypeCompiler.compileReference target run fromLoc declLoc).2.backendCompileTypeCalls
        = run.backendCompileTypeCalls ∧
    (∀ n, target.compileReference fromLoc declLoc = .ok n →
      n.flavor.isPlain = true → n.shouldCache = true →
      (SimpleTypeCompiler.compileReference target run fromLoc declLoc).1 =
        .ok (SimpleTypeCompilerNode.mk (.reference declLoc) false [n])) := by
  refine ⟨?_, ?_, ?_⟩
  · simp [compileKernel, hcache, hpath, hdecl, hout]
  · cases h : target.compileReference fromLoc declLoc <;>
      simp [SimpleTypeCompiler.compileReference, h]
  · intro n h hp hc
    simp [SimpleTypeCompiler.compileReference, h, hp, hc]

/-- Witness for C2: a concrete recursive type with an assigned declaration
location is re-encountered on its own path; the kernel emits the
compileReference result, no backend `compileType` call is recorded, and the
node is a reference node to the assigned location wrapping the backend's
plain chunk. -/
theorem compileType_cycle_reference_witness :
    compileKernel exTargetC2 5 exRunC2 [exStepC2] 21 =
      SimpleTypeCompiler.compileReference exTargetC2 exRunC2 exFromLoc exDeclLoc ∧
    (SimpleTypeCompiler.compileReference exTargetC2 exRunC2 exFromLoc exDeclLoc).2.backendCompileTypeCalls
        = exRunC2.backendCompileTypeCalls ∧
    (SimpleTypeCompiler.compileReference exTargetC2 exRunC2 exFromLoc exDeclLoc).1 =
      .ok (SimpleTypeCompilerNode.mk (.reference exDeclLoc) false
        [SimpleTypeCompilerNode.mk .plain true []]) := by
  have h := compileType_cycle_emits_reference exTargetC2 4 exRunC2 [exStepC2] 21
      exDeclLoc exFromLoc rfl (by decide) rfl rfl
  exact ⟨h.1, h.2.1, h.2.2 (SimpleTypeCompilerNode.mk .plain true []) rfl rfl rfl⟩

-- ===========================================================================
-- C3 (corrected), C8
-- ===========================================================================

/-- An anonymous type of kind OBJECT infers the name "AnonymousObject": the
naming visitor yields nothing for OBJECT, and the fallback camel-cases
`ANONYMOUS_OBJECT`. -/
theorem inferTypeName_anonymous_object (tbl : TypeTable) (fuel : Nat) (t : TypeId)
    (hname : isTruthyName (tbl t).name = false) (hkind : (tbl t).kind = .OBJECT) :
    SimpleTypeCompiler.inferTypeName tbl fuel t = "AnonymousObject" := by
  unfold SimpleTypeCompiler.inferTypeName
  have hv : inferTypeNameVisitor tbl fuel t = none := by
    cases fuel with
    | zero => rfl
    | succ m =>
      unfold inferTypeNameVisitor
      simp [hname, hkind]
  rw [hv, hkind]
  decide

/-- C3 (amended): `assignDeclarationLocation` keeps a counter keyed by the
`(fileName, namespace, baseName)` triple: a fresh assignment that resolves
to a triple with current counter value n names the declaration
`base ++ toString n` when n > 0 and `base` when n = 0, bumps that triple's
counter to n + 1, and records the assignment — so a sequence of fresh
assignments to one triple yields Foo, Foo1, Foo2, ... in assignment order.
In particular, distinct anonymous types (of kind object) assigned to the
same file and namespace receive base name "AnonymousObject" (not
"Anonymous"): the names are AnonymousObject, AnonymousObject1, ... -/
theorem assignDeclarationLocation_counter
    (tbl : TypeTable) (target : SimpleTypeCompilerTarget) (fuel : Nat)
    (run : CompilerRun) (t : TypeId) (f : String) (ns : Option (List String))
    (base : String) (n : Nat)
    (hfresh : run.current.program.getDeclarationLocation t = none)
    (hcount : run.current.program.getDeclarationLocationCount
        { fileName := f, nspace := ns, name := base } = n) :
    ((SimpleTypeCompiler.assignDeclarationLocation tbl target fuel run t
        (some { fileName := f, nspace := ns, name := some base })).1 =
      { fileName := f, nspace := ns,
        name := if n > 0 then base ++ toString n else base }) ∧
    ((SimpleTypeCompiler.assignDeclarationLocation tbl target fuel run t
        (some { fileName := f, nspace := ns, name := some base })).2.current.program.getDeclarationLocationCount
        { fileName := f, nspace := ns, name := base } = n + 1) ∧
    ((SimpleTypeCompiler.assignDeclarationLocation tbl target fuel run t
        (some { fileName := f, nspace := ns, name := some base })).2.current.program.getDeclarationLocation t =
      some (SimpleTypeCompiler.assignDeclarationLocation tbl target fuel run t
        (some { fileName := f, nspace := ns, name := some base })).1) ∧
    (∀ t', isTruthyName (tbl t').name = false → (tbl t').kind = .OBJECT →
      SimpleTypeCompiler.inferTypeName tbl fuel t' = "AnonymousObject") := by
  refine ⟨?_, ?_, ?_, fun t' h1 h2 => inferTypeName_anonymous_object tbl fuel t' h1 h2⟩
  · simp [SimpleTypeCompiler.assignDeclarationLocation, hfresh, hcount]
  · simp only [SimpleTypeCompiler.assignDeclarationLocation, hfresh,
          Option.getD_some]
    rw [getCount_setDeclarationLocation, getCount_setCount_same, hcount]
  · simp [SimpleTypeCompiler.assignDeclarationLocation, hfresh, hcount,
          getDeclarationLocation_set_same]

/-- Witness for C3: two fresh types assigned to the same triple
`("f.out", none, "Foo")` receive "Foo" and "Foo1" in assignment order, and
an anonymous object's inferred base name is "AnonymousObject". -/
theorem assignDeclarationLocation_counter_witness :
    (SimpleTypeCompiler.assignDeclarationLocation tblC3 targetC3 1 runC3 0
        (some { fileName := "f.out", name := some ("Foo") })).1 =
      { fileName := "f.out", nspace := none, name := "Foo" } ∧
    (SimpleTypeCompiler.assignDeclarationLocation tblC3 targetC3 1
        (SimpleTypeCompiler.assignDeclarationLocation tblC3 targetC3 1 runC3 0
          (some { fileName := "f.out", name := some ("Foo") })).2
        1 (some { fileName := "f.out", name := some ("Foo") })).1 =
      { fileName := "f.out", nspace := none, name := "Foo1" } ∧
    SimpleTypeCompiler.inferTypeName tblC3 1 0 = "AnonymousObject" := by
  have h1 := assignDeclarationLocation_counter tblC3 targetC3 1 runC3 0
      "f.out" none "Foo" 0 rfl rfl
  have h2 := assignDeclarationLocation_counter tblC3 targetC3 1
      (SimpleTypeCompiler.assignDeclarationLocation tblC3 targetC3 1 runC3 0
        (some { fileName := "f.out", name := some ("Foo") })).2
      1 "f.out" none "Foo" 1 (by rfl) (by rfl)
  refine ⟨?_, ?_, h1.2.2.2 0 rfl rfl⟩
  · rw [h1.1]; decide
  · rw [h2.1]; decide

/-- Counterexample for C3 as stated: two distinct anonymous types (kind
OBJECT, no name, no explicit location) assigned under one program to the
same file and namespace receive the names "AnonymousObject" and
"AnonymousObject1" — not "Anonymous" and "Anonymous1" as the claim says. -/
theorem anonymous_types_not_named_Anonymous :
    (SimpleTypeCompiler.assignDeclarationLocation tblC3 targetC3 1 runC3 0 none).1.name
        = "AnonymousObject" ∧
    (SimpleTypeCompiler.assignDeclarationLocation tblC3 targetC3 1
        (SimpleTypeCompiler.assignDeclarationLocation tblC3 targetC3 1 runC3 0 none).2
        1 none).1.name = "AnonymousObject1" ∧
    ¬((SimpleTypeCompiler.assignDeclarationLocation tblC3 targetC3 1 runC3 0 none).1.name
        = "Anonymous") := by
  refine ⟨by decide, by decide, by decide⟩

/-- C8: if the walk inside `compileType` throws an uncaught `RangeError`
whose message includes "call stack size", `compileType` replaces it with a
new `Error` whose message is the `Circular compilation` remediation text —
naming the first truthy-named type on `getSubpathFrom(path, type)` when one
exists, else the placeholder "type" — that instructs the caller to call
`assignDeclarationLocation` before recursing or build a reference node
manually; the original `RangeError` is attached as the new error's `cause`,
and the `current` cell is still restored. -/
theorem compileType_transforms_stack_overflow
    (tbl : TypeTable) (target : SimpleTypeCompilerTarget) (fuel : Nat)
    (run : CompilerRun) (type : TypeId) (path : SimpleTypePath)
    (outputLocation : Option SimpleTypeCompilerLocation)
    (e : JsException) (krun : CompilerRun)
    (hinner : compileKernel target fuel
        { run with current := { run.current with outputLocation :=
            match outputLocation with
            | some l => some l
            | none => run.current.outputLocation } } path type = (.error e, krun))
    (hrange : isStackSizeRangeError e = true) :
    SimpleTypeCompiler.compileType tbl target fuel run type path outputLocation =
      (.error ⟨.error (circularCompilationMessage tbl path type), some e.value⟩,
       { krun with current := { krun.current with
           outputLocation := run.current.outputLocation } }) := by
  unfold SimpleTypeCompiler.compileType
  simp only [hinner, hrange, if_true]

/-- Witness for C8: a backend that recurses forever into the named interface
"Foo" exhausts the stack; `compileType` reports the `Circular compilation`
error naming Foo, with the original `RangeError` as cause. -/
theorem compileType_stack_overflow_witness :
    SimpleTypeCompiler.compileType tblC8 targetC8 3 runC8 5 [stepC8] none =
      (.error ⟨.error (circularCompilationMessage tblC8 [stepC8] 5),
               some (.rangeError ("Maximum call stack size exceeded"))⟩,
       { current := { outputLocation := none, program := {} },
         backendCompileTypeCalls := [5, 5, 5] }) ∧
    circularCompilationMessage tblC8 [stepC8] 5 =
      "Circular compilation: in type Foo: use compiler.assignDeclarationLocation(Foo) before recursing, or build a reference node manually." := by
  have h := compileType_transforms_stack_overflow tblC8 targetC8 3 runC8 5 [stepC8] none
      ⟨.rangeError ("Maximum call stack size exceeded"), none⟩
      { current := { outputLocation := none, program := {} },
        backendCompileTypeCalls := [5, 5, 5] } (by rfl) (by decide)
  exact ⟨h, by decide⟩

-- ===========================================================================
-- C5: the walker annotates an escaping error exactly once per identity
-- ===========================================================================

/-- The `visitChild` case of `runVisitorBody` is exactly a `walkRecursive`
call on the child frame (the inlining used to keep recursion structural). -/
theorem runVisitorBody_visitChild_eq_walkRecursive
    (render : TypeId → String) (tbl : TypeTable) (path : SimpleTypePath)
    (s : Step) (child : TypeId) (inner : VisitorProg) (ann : AnnotatedErrorSet) :
    runVisitorBody render tbl path (.visitChild s child inner) ann =
      walkRecursive render tbl (SimpleTypePath.concat path (.step s)) child inner ann := rfl

/-- A visitor body that returns normally leaves the annotated-error set
unchanged (annotations happen only on the error path). -/
theorem runVisitorBody_ok_preserves_ann (render : TypeId → String) (tbl : TypeTable) :
    ∀ (body : VisitorProg) (path : SimpleTypePath) (ann : AnnotatedErrorSet)
      (v : Nat) (ann₁ : AnnotatedErrorSet),
      runVisitorBody render tbl path body ann = (.ok v, ann₁) → ann₁ = ann := by
  intro body
  induction body with
  | ret w =>
    intro path ann v ann₁ h
    simp [runVisitorBody] at h
    exact h.2.symm
  | throwErr i m =>
    intro path ann v ann₁ h
    simp [runVisitorBody] at h
  | visitChild s child inner ih =>
    intro path ann v ann₁ h
    simp only [runVisitorBody] at h
    cases hr : runVisitorBody render tbl (SimpleTypePath.concat path (.step s)) inner ann with
    | mk res a₀ =>
      rw [hr] at h
      cases res with
      | ok w =>
        simp at h
        rw [← h.2]
        exact ih _ _ _ _ hr
      | error e => simp at h
  | andThen a b iha ihb =>
    intro path ann v ann₁ h
    simp only [runVisitorBody] at h
    cases hr : runVisitorBody render tbl path a ann with
    | mk res a₀ =>
      rw [hr] at h
      cases res with
      | ok w =>
        have h₀ := iha _ _ _ _ hr
        have h₁ := ihb _ _ _ _ h
        exact h₁.trans h₀
      | error e => simp at h

/-- A visitor body that throws only ever grows the annotated-error set. -/
theorem runVisitorBody_error_superset (render : TypeId → String) (tbl : TypeTable) :
    ∀ (body : VisitorProg) (path : SimpleTypePath) (ann : AnnotatedErrorSet)
      (e : JsError) (ann₁ : AnnotatedErrorSet),
      runVisitorBody render tbl path body ann = (.error e, ann₁) →
      ∀ x, x ∈ ann → x ∈ ann₁ := by
  intro body
  induction body with
  | ret w => intro path ann e ann₁ h; simp [runVisitorBody] at h
  | throwErr i m =>
    intro path ann e ann₁ h x hx
    simp [runVisitorBody] at h
    rw [← h.2]; exact hx
  | visitChild s child inner ih =>
    intro path ann e ann₁ h x hx
    simp only [runVisitorBody] at h
    cases hr : runVisitorBody render tbl (SimpleTypePath.concat path (.step s)) inner ann with
    | mk res a₀ =>
      rw [hr] at h
      cases res with
      | ok w => simp at h
      | error e₀ =>
        have hmem := ih _ _ _ _ hr x hx
        simp only [annotateCaughtError] at h
        by_cases hin : e₀.id ∈ a₀
        · simp [hin] at h
          rw [← h.2]; exact hmem
        · simp [hin] at h
          rw [← h.2]; exact List.mem_cons_of_mem _ hmem
  | andThen a b iha ihb =>
    intro path ann e ann₁ h x hx
    simp only [runVisitorBody] at h
    cases hr : runVisitorBody render tbl path a ann with
    | mk res a₀ =>
      rw [hr] at h
      cases res with
      | ok w =>
        have h₀ := runVisitorBody_ok_preserves_ann render tbl a path ann w a₀ hr
        exact ihb _ _ _ _ h x (h₀ ▸ hx)
      | error e₀ =>
        simp at h
        rw [← h.2]
        exact iha _ _ _ _ (by rw [hr, h.1]) x hx

/-- Characterization of every error escaping a visitor body: it originates
from a `throw` in the body with some raw message m; if its identity was
already annotated its message is still m or the previously annotated form;
if fresh and not yet caught by an inner frame the message is raw and the
set does not contain it; once an inner frame annotated it, the message is m
plus exactly one `Path:` line and the set contains it. -/
theorem runVisitorBody_error_message (render : TypeId → String) (tbl : TypeTable) :
    ∀ (body : VisitorProg) (path : SimpleTypePath) (ann : AnnotatedErrorSet)
      (e : JsError) (ann₁ : AnnotatedErrorSet),
      runVisitorBody render tbl path body ann = (.error e, ann₁) →
      ∃ m, body.throwsError e.id m = true ∧
        ((e.id ∈ ann ∧ e.message = m) ∨
         (e.id ∉ ann ∧ e.message = m ∧ e.id ∉ ann₁) ∨
         (e.id ∉ ann ∧ e.id ∈ ann₁ ∧ ∃ p' t', e.message =
            m ++ "\nPath: " ++ SimpleTypePath.toStr render tbl p' (some t'))) := by
  intro body
  induction body with
  | ret w => intro path ann e ann₁ h; simp [runVisitorBody] at h
  | throwErr i msg =>
    intro path ann e ann₁ h
    rw [show runVisitorBody render tbl path (.throwErr i msg) ann =
          (.error ⟨i, msg⟩, ann) from rfl] at h
    injection h with h1 h2
    injection h1 with h3
    subst h3; subst h2
    refine ⟨msg, by simp [VisitorProg.throwsError], ?_⟩
    by_cases hin : (⟨i, msg⟩ : JsError).id ∈ ann
    · exact Or.inl ⟨hin, rfl⟩
    · exact Or.inr (Or.inl ⟨hin, rfl, hin⟩)
  | visitChild s child inner ih =>
    intro path ann e ann₁ h
    simp only [runVisitorBody] at h
    cases hr : runVisitorBody render tbl (SimpleTypePath.concat path (.step s)) inner ann with
    | mk res a₀ =>
      rw [hr] at h
      cases res with
      | ok w => simp at h
      | error e₀ =>
        obtain ⟨m, hthrow, hc⟩ := ih _ _ _ _ hr
        simp only [annotateCaughtError] at h
        by_cases hin : e₀.id ∈ a₀
        · rw [if_pos hin] at h
          injection h with h1 h2
          injection h1 with h3
          subst h3; subst h2
          refine ⟨m, hthrow, ?_⟩
          rcases hc with ⟨hmem, hmsg⟩ | ⟨hnot, hmsg, hnot₁⟩ | ⟨hnot, hmem₁, hform⟩
          · exact Or.inl ⟨hmem, hmsg⟩
          · exact absurd hin hnot₁
          · exact Or.inr (Or.inr ⟨hnot, hmem₁, hform⟩)
        · rw [if_neg hin] at h
          injection h with h1 h2
          injection h1 with h3
          subst h3; subst h2
          refine ⟨m, by simpa [VisitorProg.throwsError] using hthrow, ?_⟩
          rcases hc with ⟨hmem, hmsg⟩ | ⟨hnot, hmsg, _⟩ | ⟨hnot, hmem₁, _⟩
          · exact absurd (runVisitorBody_error_superset render tbl inner _ _ _ _ hr e₀.id hmem) hin
          · exact Or.inr (Or.inr ⟨hnot, List.mem_cons_self _ _,
              ⟨SimpleTypePath.concat path (.step s), child, by simp [hmsg]⟩⟩)
          · exact absurd hmem₁ hin
  | andThen a b iha ihb =>
    intro path ann e ann₁ h
    simp only [runVisitorBody] at h
    cases hr : runVisitorBody render tbl path a ann with
    | mk res a₀ =>
      rw [hr] at h
      cases res with
      | ok w =>
        have hann := runVisitorBody_ok_preserves_ann render tbl a path ann w a₀ hr
        subst hann
        obtain ⟨m, hthrow, hc⟩ := ihb _ _ _ _ h
        exact ⟨m, by simp [VisitorProg.throwsError, hthrow], hc⟩
      | error e₀ =>
        injection h with h1 h2
        injection h1 with h3
        subst h3; subst h2
        obtain ⟨m, hthrow, hc⟩ := iha _ _ _ _ hr
        exact ⟨m, by simp [VisitorProg.throwsError, hthrow], hc⟩

/-- C5: an error escaping `walkRecursive` keeps its identity (it is the
rethrown object of a throw in the visitor body, with some raw message m),
its identity is in the already-annotated weak set afterwards, and its
message carries exactly one `\nPath: <toString(path, type)>` line: if the
identity was annotated before this walk the message is the raw m unchanged
(no second annotation, however many frames it crossed), and otherwise it is
m with a single Path line appended by the innermost catching frame. -/
theorem walkRecursive_annotates_path_once
    (render : TypeId → String) (tbl : TypeTable) (path : SimpleTypePath)
    (t : TypeId) (body : VisitorProg) (ann : AnnotatedErrorSet)
    (e : JsError) (ann₂ : AnnotatedErrorSet)
    (h : walkRecursive render tbl path t body ann = (.error e, ann₂)) :
    e.id ∈ ann₂ ∧
    ∃ m, body.throwsError e.id m = true ∧
      ((e.id ∈ ann ∧ e.message = m) ∨
       (e.id ∉ ann ∧ ∃ p' t', e.message =
          m ++ "\nPath: " ++ SimpleTypePath.toStr render tbl p' (some t'))) := by
  unfold walkRecursive at h
  cases hr : runVisitorBody render tbl path body ann with
  | mk res a₀ =>
    rw [hr] at h
    cases res with
    | ok v => simp at h
    | error e₀ =>
      obtain ⟨m, hthrow, hc⟩ := runVisitorBody_error_message render tbl body path ann e₀ a₀ hr
      simp only [annotateCaughtError] at h
      by_cases hin : e₀.id ∈ a₀
      · rw [if_pos hin] at h
        injection h with h1 h2
        injection h1 with h3
        subst h3; subst h2
        refine ⟨hin, m, hthrow, ?_⟩
        rcases hc with ⟨hmem, hmsg⟩ | ⟨hnot, hmsg, hnot₁⟩ | ⟨hnot, _, hform⟩
        · exact Or.inl ⟨hmem, hmsg⟩
        · exact absurd hin hnot₁
        · exact Or.inr ⟨hnot, hform⟩
      · rw [if_neg hin] at h
        injection h with h1 h2
        injection h1 with h3
        subst h3; subst h2
        refine ⟨List.mem_cons_self _ _, m, hthrow, ?_⟩
        rcases hc with ⟨hmem, hmsg⟩ | ⟨hnot, hmsg, _⟩ | ⟨hnot, hmem₁, _⟩
        · exact absurd (runVisitorBody_error_superset render tbl body path ann e₀ a₀ hr e₀.id hmem) hin
        · exact Or.inr ⟨hnot, path, t, by simp [hmsg]⟩
        · exact absurd hmem₁ hin

/-- Witness for C5: the concrete error 7 ("boom") thrown two frames deep
escapes with exactly one appended Path line and its identity recorded. -/
theorem walkRecursive_annotates_path_once_witness :
    (⟨7, "boom\nPath: Root.a.b: ?"⟩ : JsError).id ∈ ([7] : AnnotatedErrorSet) ∧
    ∃ m, exProg.throwsError (⟨7, "boom\nPath: Root.a.b: ?"⟩ : JsError).id m = true ∧
      (((⟨7, "boom\nPath: Root.a.b: ?"⟩ : JsError).id ∈ ([] : AnnotatedErrorSet) ∧
          (⟨7, "boom\nPath: Root.a.b: ?"⟩ : JsError).message = m) ∨
       ((⟨7, "boom\nPath: Root.a.b: ?"⟩ : JsError).id ∉ ([] : AnnotatedErrorSet) ∧
          ∃ p' t', (⟨7, "boom\nPath: Root.a.b: ?"⟩ : JsError).message =
            m ++ "\nPath: " ++ SimpleTypePath.toStr exRender exTbl p' (some t'))) :=
  walkRecursive_annotates_path_once exRender exTbl [] 0 exProg []
    ⟨7, "boom\nPath: Root.a.b: ?"⟩ [7] (by rfl)

-- ===========================================================================
-- C1 (corrected): memoization
-- ===========================================================================

/-- `compileReference` never touches the program caches or the backend
`compileType` trace (it only calls the backend's `compileReference`). -/
theorem compileReference_preserves_program_trace
    (target : SimpleTypeCompilerTarget) (run : CompilerRun)
    (fromLoc : SimpleTypeCompilerLocation)
    (toLoc : SimpleTypeCompilerDeclarationLocation) :
    (SimpleTypeCompiler.compileReference target run fromLoc toLoc).2.current.program
        = run.current.program ∧
    (SimpleTypeCompiler.compileReference target run fromLoc toLoc).2.backendCompileTypeCalls
        = run.backendCompileTypeCalls := by
  cases h : target.compileReference fromLoc toLoc <;>
    simp [SimpleTypeCompiler.compileReference, h]

/-- Caching a node for one type leaves every other type's cache entry
unchanged. -/
theorem getAstNode_set_ne (p : SimpleTypeCompilerProgram) {t t' : TypeId}
    (n : SimpleTypeCompilerNode) (h : ¬ t' = t) :
    (p.setAstNode t' n).getAstNode t = p.getAstNode t := by
  have hb : (t' == t) = false := beq_eq_false_iff_ne.mpr h
  simp [SimpleTypeCompilerProgram.setAstNode, SimpleTypeCompilerProgram.getAstNode,
        List.find?, hb]

/-- If every recursive child compilation preserves a cached entry for t and
never invokes the backend on t, then so does a whole backend body. -/
theorem runBackendActsWith_preserves
    (recurse : CompilerRun → SimpleTypePath → TypeId →
      Except JsException SimpleTypeCompilerNode × CompilerRun)
    (t : TypeId) (n : SimpleTypeCompilerNode)
    (hrec : ∀ (run : CompilerRun) (path : SimpleTypePath) (type : TypeId),
      run.current.program.getAstNode t = some n →
      ((recurse run path type).2.current.program.getAstNode t = some n ∧
       (recurse run path type).2.backendCompileTypeCalls.count t =
         run.backendCompileTypeCalls.count t)) :
    ∀ (acts : List BackendAct) (path : SimpleTypePath) (run : CompilerRun),
      run.current.program.getAstNode t = some n →
      ((runBackendActsWith recurse path acts run).2.current.program.getAstNode t = some n ∧
       (runBackendActsWith recurse path acts run).2.backendCompileTypeCalls.count t =
         run.backendCompileTypeCalls.count t) := by
  intro acts
  induction acts with
  | nil => intro path run h; exact ⟨h, rfl⟩
  | cons a rest ih =>
    intro path run h
    cases a with
    | throwErr e => exact ⟨h, rfl⟩
    | visit s child =>
      have h₁ := hrec run (SimpleTypePath.concat path (.step s)) child h
      cases hr : recurse run (SimpleTypePath.concat path (.step s)) child with
      | mk res run₁ =>
        rw [hr] at h₁
        cases res with
        | error e =>
          simp only [runBackendActsWith, hr]
          exact h₁
        | ok node =>
          have h₂ := ih path run₁ h₁.1
          cases hb : runBackendActsWith recurse path rest run₁ with
          | mk res₂ run₂ =>
            rw [hb] at h₂
            cases res₂ with
            | error e =>
              simp only [runBackendActsWith, hr, hb]
              exact ⟨h₂.1, h₂.2.trans h₁.2⟩
            | ok nodes =>
              simp only [runBackendActsWith, hr, hb]
              exact ⟨h₂.1, h₂.2.trans h₁.2⟩

/-- Once a node for t is in the AST cache, no kernel invocation — at any
fuel, path, or starting type — removes it or invokes the backend's
`compileType` on t again: the only call site of the backend checks the
cache first and caching is per-type. -/
theorem compileKernel_no_backend_after_cache
    (target : SimpleTypeCompilerTarget) (t : TypeId) (n : SimpleTypeCompilerNode) :
    ∀ (fuel : Nat) (run : CompilerRun) (path : SimpleTypePath) (type : TypeId),
      run.current.program.getAstNode t = some n →
      ((compileKernel target fuel run path type).2.current.program.getAstNode t = some n ∧
       (compileKernel target fuel run path type).2.backendCompileTypeCalls.count t =
         run.backendCompileTypeCalls.count t) := by
  intro fuel
  induction fuel with
  | zero => intro run path type h; exact ⟨h, rfl⟩
  | succ m ih =>
    intro run path type h
    cases hc : run.current.program.getAstNode type with
    | some cached =>
      simp only [compileKernel, hc]
      exact ⟨h, trivial⟩
    | none =>
      have hne : ¬ type = t := by
        intro he
        rw [he, h] at hc
        cases hc
      cases hd : (if SimpleTypePath.includes path type then
          run.current.program.getDeclarationLocation type else none) with
      | some declLoc =>
        cases ho : run.current.outputLocation with
        | none =>
          simp only [compileKernel, hc, hd, ho]
          exact ⟨h, trivial⟩
        | some fromLoc =>
          simp only [compileKernel, hc, hd, ho]
          have hp := compileReference_preserves_program_trace target run fromLoc declLoc
          refine ⟨?_, ?_⟩
          · rw [hp.1]; exact h
          · rw [hp.2]
      | none =>
        have hbt : (t == type) = false :=
          beq_eq_false_iff_ne.mpr (fun hx => hne hx.symm)
        have hcount₁ : (run.backendCompileTypeCalls ++ [type]).count t =
            run.backendCompileTypeCalls.count t := by
          simp [List.count_append, List.count_cons, List.count_nil, hbt, hne]
        have hacts := runBackendActsWith_preserves
          (fun r p c => compileKernel target m r p c) t n
          (fun r p c hh => ih r p c hh)
          (target.compileType type path).acts path
          { run with backendCompileTypeCalls := run.backendCompileTypeCalls ++ [type] } h
        cases hb : runBackendActsWith (fun r p c => compileKernel target m r p c) path
            (target.compileType type path).acts
            { run with backendCompileTypeCalls := run.backendCompileTypeCalls ++ [type] } with
        | mk res run₂ =>
          rw [hb] at hacts
          cases res with
          | error e =>
            simp only [compileKernel, hc, hd, hb]
            exact ⟨hacts.1, hacts.2.trans hcount₁⟩
          | ok childNodes =>
            by_cases hcache : (target.compileType type path).shouldCache
            · simp only [compileKernel, hc, hd, hb, hcache, if_true]
              refine ⟨?_, ?_⟩
              · rw [getAstNode_set_ne _ _ hne]
                exact hacts.1
              · exact hacts.2.trans hcount₁
            · simp only [compileKernel, hc, hd, hb, hcache, if_false]
              exact ⟨hacts.1, hacts.2.trans hcount₁⟩

/-- C1 (amended): memoization holds from the moment a type's node is cached:
if the program's AST cache holds a node for t, then any `compileType`
invocation — of any type, at any path — keeps that entry and never invokes
the backend's `compileType` on t again (the per-t backend call count is
unchanged), and compiling t itself returns the cached node. Before a
cacheable node for t completes, the backend may be invoked more than once
for t: nodes marked doNotCache are never cached, and a type re-encountered
while its own first compilation is in progress without an assigned
declaration location reaches the backend again. -/
theorem compileType_memoized_once_cached
    (tbl : TypeTable) (target : SimpleTypeCompilerTarget) (fuel : Nat)
    (run : CompilerRun) (t type : TypeId) (path : SimpleTypePath)
    (oloc : Option SimpleTypeCompilerLocation) (n : SimpleTypeCompilerNode)
    (hcached : run.current.program.getAstNode t = some n) :
    ((SimpleTypeCompiler.compileType tbl target fuel run type path oloc).2.current.program.getAstNode t
        = some n) ∧
    (List.count t (SimpleTypeCompiler.compileType tbl target fuel run type path oloc).2.backendCompileTypeCalls
        = List.count t run.backendCompileTypeCalls) ∧
    (0 < fuel → (SimpleTypeCompiler.compileType tbl target fuel run t path oloc).1 = .ok n) := by
  have hk := compileKernel_no_backend_after_cache target t n fuel
      { run with current := { run.current with outputLocation :=
          match oloc with
          | some l => some l
          | none => run.current.outputLocation } } path type hcached
  refine ⟨?_, ?_, ?_⟩
  · simp only [SimpleTypeCompiler.compileType]
    exact hk.1
  · simp only [SimpleTypeCompiler.compileType]
    exact hk.2
  · intro hf
    cases fuel with
    | zero => exact absurd hf (by simp)
    | succ m =>
      simp [SimpleTypeCompiler.compileType, compileKernel, hcached]

/-- Witness for C1 (amended): with a node for type 50 already cached,
compiling 50 returns the cached node and the backend call count for 50 is
unchanged. -/
theorem compileType_memoized_witness :
    (SimpleTypeCompiler.compileType tblC3 targetC3 1 exRunC1w 50 [] none).1 =
      .ok (.mk .plain true []) ∧
    List.count 50 (SimpleTypeCompiler.compileType tblC3 targetC3 1 exRunC1w 50 [] none).2.backendCompileTypeCalls =
      List.count 50 exRunC1w.backendCompileTypeCalls := by
  have h := compileType_memoized_once_cached tblC3 targetC3 1 exRunC1w 50 50 [] none
      (.mk .plain true []) rfl
  exact ⟨h.2.2 (by decide), h.2.1⟩

/-- Counterexample for C1 as stated: in one `compileProgram` run, the
anonymous type 11 is compiled at two different paths and the backend's
`compileType` is invoked twice for it, although every node involved keeps
the default `shouldCache = true` (no `doNotCache`): type 11 is re-entered
while its own first compilation is still in progress, on a cyclic path
without an assigned declaration location. -/
theorem compileProgram_backend_twice_without_doNotCache :
    (SimpleTypeCompiler.compileProgram tblC1 targetC1 10 runC1 entriesC1).2.2.backendCompileTypeCalls
        = [10, 11, 11] ∧
    List.count 11 [10, 11, 11] = 2 ∧
    (targetC1.compileType 11 [stepC1a]).shouldCache = true ∧
    (targetC1.compileType 11 [stepC1a, stepC1b]).shouldCache = true ∧
    ([stepC1a] : SimpleTypePath) ≠ [stepC1a, stepC1b] := by
  refine ⟨by rfl, by decide, by rfl, by rfl, by decide⟩

end TsSimpleType
